import Mathlib

/-!
Shallow embedding of the talent-copilot backend core: the confirmation (HITL)
ledger, job lifecycle, memory compaction and the chat/confirm/jobs route
handlers, translated from `src/backend/app`.  Python dict/JSONB payloads are
modelled as association lists of `PyVal`, UUIDs as natural numbers drawn from a
per-database counter, and `datetime.utcnow()` as a logical clock that ticks on
every write.  External collaborators (the LLM, the GitHub fetcher) are
parameters of the functions that call them.
-/

set_option maxHeartbeats 1000000
set_option maxRecDepth 10000

namespace TalentCopilot

/-- JSON-like values stored in JSONB payload columns (models/workspace.py). -/
inductive PyVal where
  | str (s : String)
  | boolV (b : Bool)
  | listS (xs : List String)
  | dictS (kvs : List (String × String))
deriving DecidableEq

/-- A Python dict rendered as an association list (first binding wins). -/
abbrev Payload := List (String × PyVal)

/-- Python `dict.get(key)`: the value bound to `key`, if any. -/
def pyGet (p : Payload) (key : String) : Option PyVal :=
  p.lookup key

/-- Python truthiness of a payload value (empty string / list / dict are falsy). -/
def PyVal.truthy : PyVal → Bool
  | .str s => !(s == "")
  | .boolV b => b
  | .listS xs => !xs.isEmpty
  | .dictS kvs => !kvs.isEmpty

/-- Python `if v:` applied to the result of `dict.get` (None is falsy). -/
def truthyOpt : Option PyVal → Bool
  | none => false
  | some v => v.truthy

/-- Confirmation.status values (models/workspace.py: pending, approved, denied). -/
inductive CStatus where
  | pending
  | approved
  | denied
deriving DecidableEq

/-- Job.status values (models/workspace.py: queued, running, succeeded, failed). -/
inductive JStatus where
  | queued
  | running
  | succeeded
  | failed
deriving DecidableEq

/-- Row of the confirmations table (models/workspace.py, class Confirmation). -/
structure Confirmation where
  id : Nat
  tenant_id : Nat
  user_id : Nat
  session_id : Nat
  tool_name : String
  payload : Payload
  status : CStatus
  created_at : Nat
  resolved_at : Option Nat
deriving DecidableEq

/-- Row of the jobs table (models/workspace.py, class Job). -/
structure Job where
  id : Nat
  tenant_id : Nat
  user_id : Nat
  job_type : String
  status : JStatus
  payload : Payload
  result : Option Payload
  error : Option String
  created_at : Nat
  started_at : Option Nat
  completed_at : Option Nat
deriving DecidableEq

/-- Row of the messages table (models/session.py). -/
structure Message where
  tenant_id : Nat
  session_id : Nat
  role : String
  content : String
  created_at : Nat
deriving DecidableEq

/-- Row of the candidates table (models/workspace.py, class Candidate). -/
structure Candidate where
  tenant_id : Nat
  user_id : Nat
  contact_info : PyVal
  skills : PyVal
  experience : PyVal
  projects : PyVal
  education : PyVal
  raw_text : Option String
  created_at : Nat
deriving DecidableEq

/-- Row of the repositories table (models/workspace.py, class Repository). -/
structure RepoEntity where
  tenant_id : Nat
  user_id : Nat
  repo_url : String
  normalized_url : String
  metadata_ : PyVal
  file_map : PyVal
  stack_signals : PyVal
  extracted_artifacts : PyVal
  created_at : Nat
deriving DecidableEq

/-- Row of the session_summaries table (models/session.py). -/
structure SummaryRow where
  tenant_id : Nat
  session_id : Nat
  summary_text : String
deriving DecidableEq

/-- Row of the sessions table (models/session.py). -/
structure SessionRow where
  id : Nat
  tenant_id : Nat
  user_id : Nat
deriving DecidableEq

/-- The whole persistent store.  `nextId` generates fresh primary keys and
`now` is the logical clock standing in for `datetime.utcnow()`. -/
structure DB where
  sessions : List SessionRow
  messages : List Message
  summaries : List SummaryRow
  confirmations : List Confirmation
  jobs : List Job
  candidates : List Candidate
  repos : List RepoEntity
  nextId : Nat
  now : Nat
deriving DecidableEq

/-! ### Python string helpers used by chat.py -/

/-- Python `\s` on ASCII text: space, tab, newline, carriage return, vertical tab, form feed. -/
def isPyWs (c : Char) : Bool :=
  c == ' ' || c == '\t' || c == '\n' || c == '\r' || c == '\x0b' || c == '\x0c'

/-- Python `str.strip()` on a character list. -/
def pyStripList (cs : List Char) : List Char :=
  ((cs.dropWhile isPyWs).reverse.dropWhile isPyWs).reverse

/-- Python `str.strip()`. -/
def pyStrip (s : String) : String :=
  String.mk (pyStripList s.toList)

/-- Python slicing `s[:n]`: the first n characters. -/
def pyTake (s : String) (n : Nat) : String :=
  String.mk (s.toList.take n)

/-- Python `str.lower()` (ASCII). -/
def pyLower (s : String) : String :=
  String.mk (s.toList.map Char.toLower)

/-- chat.py `_is_yes_no`: the stripped, lowercased message is one of yes/y/no/n. -/
def is_yes_no (msg : String) : Bool :=
  let s := pyLower (pyStrip msg)
  s == "yes" || s == "y" || s == "no" || s == "n"

/-- chat.py `_approved_from_message`: the stripped, lowercased message is yes or y. -/
def approved_from_message (msg : String) : Bool :=
  let s := pyLower (pyStrip msg)
  s == "yes" || s == "y"

/-! ### The GITHUB_CONFIRM_PATTERN regex (chat.py lines 41-51)

`re.search` of `Would you like me to crawl this repository:\s*(.+?)\s*\?\s*\(yes/no\)`
with IGNORECASE.  The model follows the engine semantics: leftmost start
position wins; at a given position the literal head must match
case-insensitively, the first `\s*` is greedy (longest run of whitespace first,
backtracking down to zero), the group `(.+?)` is lazy (shortest nonempty run of
non-newline characters first), and the trailing `\s*\?\s*\(yes/no\)` is
deterministic because `?` and `(` are not whitespace. -/

/-- Lowercased literal head of GITHUB_CONFIRM_PATTERN. -/
def githubHeader : List Char :=
  "would you like me to crawl this repository:".toList

/-- Match a lowercase literal case-insensitively at the head of the input,
returning the rest of the input on success. -/
def matchLitCI : List Char → List Char → Option (List Char)
  | [], s => some s
  | _ :: _, [] => none
  | p :: ps, c :: cs => if c.toLower == p then matchLitCI ps cs else none

/-- Drop the maximal leading whitespace run (`\s*` followed by a non-whitespace
literal is deterministic). -/
def dropWsL : List Char → List Char
  | [] => []
  | c :: cs => if isPyWs c then dropWsL cs else c :: cs

/-- Length of the maximal leading whitespace run. -/
def wsRunLen : List Char → Nat
  | [] => 0
  | c :: cs => if isPyWs c then wsRunLen cs + 1 else 0

/-- Match `\s*\?\s*\(yes/no\)` at the head of the input. -/
def matchTailAfterCapture (s : List Char) : Bool :=
  match dropWsL s with
  | '?' :: rest => (matchLitCI "(yes/no)".toList (dropWsL rest)).isSome
  | _ => false

/-- Lazy `(.+?)` followed by the deterministic tail: the shortest nonempty run
of non-newline characters after which `matchTailAfterCapture` succeeds. -/
def lazyCapture : List Char → Option (List Char)
  | [] => none
  | c :: cs =>
      if c == '\n' then none
      else if matchTailAfterCapture cs then some [c]
      else (lazyCapture cs).map (fun g => c :: g)

/-- Greedy initial `\s*`: try consuming `k` whitespace characters, backtracking
from the full run down to zero. -/
def tryCaptureFromWs : Nat → List Char → Option (List Char)
  | 0, s => lazyCapture s
  | k + 1, s =>
      match lazyCapture (s.drop (k + 1)) with
      | some g => some g
      | none => tryCaptureFromWs k s

/-- `GITHUB_CONFIRM_PATTERN.search`: scan start positions left to right; at
each, require the literal head (case-insensitive), then run the bounded
backtracking for `\s*(.+?)\s*\?\s*\(yes/no\)`.  Returns group 1. -/
def searchGithubConfirm : List Char → Option (List Char)
  | [] => none
  | c :: cs =>
      match matchLitCI githubHeader (c :: cs) with
      | some rest =>
          match tryCaptureFromWs (wsRunLen rest) rest with
          | some g => some g
          | none => searchGithubConfirm cs
      | none => searchGithubConfirm cs

/-- chat.py `_extract_repo_url_from_last_message`: None on missing/empty input,
else `m.group(1).strip()` if the pattern matches. -/
def extract_repo_url_from_last_message (last_assistant : Option String) : Option String :=
  match last_assistant with
  | none => none
  | some s =>
      if s == "" then none
      else (searchGithubConfirm s.toList).map (fun g => pyStrip (String.mk g))

/-! ### Fixed strings produced by the agent (services/agent.py) -/

/-- Prompt built at agent.py line 141 for a GitHub ingestion request. -/
def github_confirm_prompt (repo_url : String) : String :=
  "Would you like me to crawl this repository: " ++ repo_url ++ " ? (yes/no)"

/-- Prompt built at agent.py line 145 for a save-candidate request. -/
def save_candidate_prompt : String :=
  "Do you want me to save this candidate profile to the workspace? (yes/no)"

/-- agent.py `AgentService.respond_after_confirmation`. -/
def respond_after_confirmation (approved : Bool) (tool_result_message : String) : String :=
  if approved then tool_result_message else "Understood, I did not perform that action."

example : extract_repo_url_from_last_message
    (some (github_confirm_prompt "github.com/acme/widget")) = some "github.com/acme/widget" := by
  decide

example : extract_repo_url_from_last_message (some save_candidate_prompt) = none := by
  decide

/-! ### Repositories (src/backend/app/repositories) -/

namespace SessionRepository

/-- repositories/session.py `get_or_create` / `ensure_exists`: insert the
session row if no row with this id+tenant+user exists. -/
def ensure_exists (db : DB) (tenant_id user_id session_id : Nat) : DB :=
  if db.sessions.any (fun r => r.id == session_id && r.tenant_id == tenant_id && r.user_id == user_id)
  then db
  else { db with sessions := db.sessions ++ [⟨session_id, tenant_id, user_id⟩] }

end SessionRepository

namespace MessageRepository

/-- Rows of the messages table scoped to tenant+session, in table order. -/
def sessionMessages (db : DB) (tenant_id session_id : Nat) : List Message :=
  db.messages.filter (fun m => m.tenant_id == tenant_id && m.session_id == session_id)

/-- repositories/session.py `MessageRepository.add`. -/
def add (db : DB) (tenant_id session_id : Nat) (role content : String) : Message × DB :=
  let m : Message := ⟨tenant_id, session_id, role, content, db.now⟩
  (m, { db with messages := db.messages ++ [m], now := db.now + 1 })

/-- repositories/session.py `MessageRepository.count`. -/
def count (db : DB) (tenant_id session_id : Nat) : Nat :=
  (sessionMessages db tenant_id session_id).length

/-- Insertion into a list sorted by ascending created_at. -/
def insertByCreated (m : Message) : List Message → List Message
  | [] => [m]
  | x :: xs => if m.created_at ≤ x.created_at then m :: x :: xs else x :: insertByCreated m xs

/-- ORDER BY created_at ASC, as a sort. -/
def sortByCreated : List Message → List Message
  | [] => []
  | x :: xs => insertByCreated x (sortByCreated xs)

/-- repositories/session.py `MessageRepository.get_oldest`: session messages
ordered by created_at ascending, first `limit` of them. -/
def get_oldest (db : DB) (tenant_id session_id : Nat) (limit : Nat) : List Message :=
  (sortByCreated (sessionMessages db tenant_id session_id)).take limit

/-- Modelled from the spec: `MessageRepository.get_last_assistant_content` is
called at chat.py line 105 but its definition is not among the source files
under src/.  Spec section 4.3 step 3 says the orchestrator must inspect the
most recent assistant message, so: the content of the most recent message with
role assistant in this tenant+session, if any. -/
def get_last_assistant_content (db : DB) (tenant_id session_id : Nat) : Option String :=
  (((sortByCreated (sessionMessages db tenant_id session_id)).filter
    (fun m => m.role == "assistant")).getLast?).map (fun m => m.content)

end MessageRepository

namespace SessionSummaryRepository

/-- repositories/session.py `SessionSummaryRepository.upsert`: replace the
summary text if a row for this tenant+session exists, else insert one. -/
def upsert (db : DB) (tenant_id session_id : Nat) (summary_text : String) : DB :=
  if db.summaries.any (fun r => r.tenant_id == tenant_id && r.session_id == session_id) then
    { db with summaries := db.summaries.map (fun r =>
        if r.tenant_id == tenant_id && r.session_id == session_id then
          { r with summary_text := summary_text }
        else r) }
  else { db with summaries := db.summaries ++ [⟨tenant_id, session_id, summary_text⟩] }

end SessionSummaryRepository

namespace CandidateRepository

/-- repositories/workspace.py `CandidateRepository.create` (raw_text defaults to None). -/
def create (db : DB) (tenant_id user_id : Nat)
    (contact_info skills experience projects education : PyVal)
    (raw_text : Option String) : Candidate × DB :=
  let c : Candidate :=
    ⟨tenant_id, user_id, contact_info, skills, experience, projects, education, raw_text, db.now⟩
  (c, { db with candidates := db.candidates ++ [c], now := db.now + 1 })

end CandidateRepository

namespace RepositoryRepository

/-- Python `str.lstrip("/")`. -/
def lstripSlashes (cs : List Char) : List Char :=
  cs.dropWhile (fun c => c == '/')

/-- Python `str.rstrip("/")`. -/
def rstripSlashes (s : String) : String :=
  String.mk ((s.toList.reverse.dropWhile (fun c => c == '/')).reverse)

/-- Python `url.split("?")[0]`. -/
def takeUntilQuery (cs : List Char) : List Char :=
  cs.takeWhile (fun c => !(c == '?'))

/-- repositories/workspace.py `RepositoryRepository._normalize_url`. -/
def normalize_url (url : String) : String :=
  let url1 := rstripSlashes (pyStrip url)
  let url2 :=
    if !((pyLower url1).startsWith "http://") && !((pyLower url1).startsWith "https://") then
      "https://github.com/" ++ String.mk (lstripSlashes url1.toList)
    else url1
  String.mk (takeUntilQuery url2.toList)

/-- repositories/workspace.py `RepositoryRepository.get_by_url`. -/
def get_by_url (db : DB) (tenant_id user_id : Nat) (repo_url : String) : Option RepoEntity :=
  let norm := normalize_url repo_url
  db.repos.find? (fun r =>
    r.tenant_id == tenant_id && r.user_id == user_id && r.normalized_url == norm)

/-- repositories/workspace.py `RepositoryRepository.create_or_update`: update
the row with the same normalized url, else insert a fresh one. -/
def create_or_update (db : DB) (tenant_id user_id : Nat) (repo_url : String)
    (metadata_ file_map stack_signals extracted_artifacts : PyVal) : DB :=
  let norm := normalize_url repo_url
  match get_by_url db tenant_id user_id repo_url with
  | some _ =>
      { db with repos := db.repos.map (fun r =>
          if r.tenant_id == tenant_id && r.user_id == user_id && r.normalized_url == norm then
            { r with metadata_ := metadata_, file_map := file_map,
                     stack_signals := stack_signals, extracted_artifacts := extracted_artifacts }
          else r) }
  | none =>
      { db with
          repos := db.repos ++
            [⟨tenant_id, user_id, repo_url, norm, metadata_, file_map, stack_signals,
              extracted_artifacts, db.now⟩],
          now := db.now + 1 }

end RepositoryRepository

namespace ConfirmationRepository

/-- The WHERE clause of `ConfirmationRepository.get_pending`. -/
def pendingPred (tenant_id user_id session_id confirmation_id : Nat) (c : Confirmation) : Bool :=
  c.id == confirmation_id && c.tenant_id == tenant_id && c.user_id == user_id &&
    c.session_id == session_id && c.status == CStatus.pending

/-- repositories/workspace.py `ConfirmationRepository.get_pending`: the row
with this id, scoped to tenant+user+session and status pending. -/
def get_pending (db : DB) (tenant_id user_id session_id confirmation_id : Nat) : Option Confirmation :=
  db.confirmations.find? (pendingPred tenant_id user_id session_id confirmation_id)

/-- The WHERE clause of `ConfirmationRepository.get_pending_for_session`. -/
def sessionPendingPred (tenant_id user_id session_id : Nat) (c : Confirmation) : Bool :=
  c.tenant_id == tenant_id && c.user_id == user_id && c.session_id == session_id &&
    c.status == CStatus.pending

/-- Pick the row with the larger created_at (ORDER BY created_at DESC LIMIT 1,
as a fold). -/
def pickLatest (acc : Option Confirmation) (c : Confirmation) : Option Confirmation :=
  match acc with
  | none => some c
  | some a => if a.created_at < c.created_at then some c else some a

/-- repositories/workspace.py `ConfirmationRepository.get_pending_for_session`:
ORDER BY created_at DESC LIMIT 1 over the pending confirmations of this session. -/
def get_pending_for_session (db : DB) (tenant_id user_id session_id : Nat) : Option Confirmation :=
  (db.confirmations.filter (sessionPendingPred tenant_id user_id session_id)).foldl
    pickLatest none

/-- repositories/workspace.py `ConfirmationRepository.create_pending`. -/
def create_pending (db : DB) (tenant_id user_id session_id : Nat) (tool_name : String)
    (payload : Payload) : Confirmation × DB :=
  let c : Confirmation :=
    ⟨db.nextId, tenant_id, user_id, session_id, tool_name, payload, CStatus.pending, db.now, none⟩
  (c, { db with confirmations := db.confirmations ++ [c],
                nextId := db.nextId + 1, now := db.now + 1 })

/-- repositories/workspace.py `ConfirmationRepository.resolve`: no-op returning
None unless `get_pending` finds the row; otherwise set status and resolved_at. -/
def resolve (db : DB) (tenant_id user_id session_id confirmation_id : Nat)
    (approved : Bool) : Option Confirmation × DB :=
  match get_pending db tenant_id user_id session_id confirmation_id with
  | none => (none, db)
  | some c =>
      let c2 := { c with status := if approved then CStatus.approved else CStatus.denied,
                         resolved_at := some db.now }
      let confs1 := db.confirmations.map (fun x => if x.id == confirmation_id then c2 else x)
      (some c2, { db with confirmations := confs1, now := db.now + 1 })

end ConfirmationRepository

namespace JobRepository

/-- repositories/workspace.py `JobRepository.create`: a fresh job in status queued. -/
def create (db : DB) (tenant_id user_id : Nat) (job_type : String) (payload : Payload) : Job × DB :=
  let j : Job :=
    ⟨db.nextId, tenant_id, user_id, job_type, JStatus.queued, payload, none, none, db.now, none, none⟩
  (j, { db with jobs := db.jobs ++ [j], nextId := db.nextId + 1, now := db.now + 1 })

/-- repositories/workspace.py `JobRepository.get`: the row with this id scoped
to tenant+user. -/
def get (db : DB) (tenant_id user_id job_id : Nat) : Option Job :=
  db.jobs.find? (fun j => j.id == job_id && j.tenant_id == tenant_id && j.user_id == user_id)

end JobRepository

/-! ### Services: summary compaction (services/summary.py) and background
ingestion (jobs.py) -/

/-- services/summary.py `update_session_summary_if_needed`.  `has_api_key`
models the OPENAI_API_KEY guard, `window` models settings.memory_window_size,
`summarize` models the LLM call.  The second component of the result is the
text submitted to the summarizer; none means the summarizer was not called. -/
def update_session_summary_if_needed (db : DB) (has_api_key : Bool) (window : Nat)
    (summarize : String → String) (tenant_id session_id : Nat) : DB × Option String :=
  if !has_api_key then (db, none)
  else
    let cnt := MessageRepository.count db tenant_id session_id
    if cnt ≤ 2 * window then (db, none)
    else
      let oldest := MessageRepository.get_oldest db tenant_id session_id window
      if oldest.isEmpty then (db, none)
      else
        let text_to_summarize := String.intercalate "\n"
          (oldest.map (fun m => m.role ++ ": " ++ pyTake m.content 500))
        let summary_text := summarize text_to_summarize
        (SessionSummaryRepository.upsert db tenant_id session_id summary_text, some text_to_summarize)

/-- Data returned by the external fetcher `ingest_github_repo`. -/
structure IngestData where
  metadata_ : PyVal
  file_map : PyVal
  stack_signals : PyVal
  extracted_artifacts : PyVal
deriving DecidableEq

/-- jobs.py `(job.payload or {}).get("repo_url", "")` (job payloads built by the
modelled routes always bind repo_url to a string when present). -/
def payloadRepoUrl (p : Payload) : String :=
  match pyGet p "repo_url" with
  | some (PyVal.str u) => u
  | some _ => ""
  | none => ""

/-- jobs.py `run_github_ingestion_job`.  `ingest_github_repo` is the external
fetcher (services/github_ingest.py): an exception is an `Except.error`.  Also
returns the list of statuses written to the job, in order. -/
def run_github_ingestion_job (db : DB) (job_id : Nat)
    (ingest_github_repo : String → Except String IngestData) : DB × List JStatus :=
  match db.jobs.find? (fun j => j.id == job_id) with
  | none => (db, [])
  | some job =>
      if !(job.status == JStatus.queued) then (db, [])
      else
        let jobsRunning := db.jobs.map (fun j =>
          if j.id == job_id then { j with status := JStatus.running, started_at := some db.now }
          else j)
        let db1 : DB := { db with jobs := jobsRunning, now := db.now + 1 }
        let repo_url := payloadRepoUrl job.payload
        match ingest_github_repo repo_url with
        | Except.error e =>
            match db1.jobs.find? (fun j => j.id == job_id) with
            | none => (db1, [JStatus.running])
            | some _ =>
                let jobsFailed := db1.jobs.map (fun j =>
                  if j.id == job_id then
                    { j with status := JStatus.failed, error := some e,
                             completed_at := some db1.now }
                  else j)
                ({ db1 with jobs := jobsFailed, now := db1.now + 1 },
                 [JStatus.running, JStatus.failed])
        | Except.ok data =>
            match db1.jobs.find? (fun j => j.id == job_id) with
            | none => (db1, [JStatus.running])
            | some j3 =>
                let jobsDone := db1.jobs.map (fun j =>
                  if j.id == job_id then
                    { j with status := JStatus.succeeded,
                             result := some [("repo_url", PyVal.str repo_url),
                                             ("ingested", PyVal.boolV true)],
                             completed_at := some db1.now }
                  else j)
                let db2 : DB := { db1 with jobs := jobsDone, now := db1.now + 1 }
                let db3 := RepositoryRepository.create_or_update db2 j3.tenant_id j3.user_id
                  repo_url data.metadata_ data.file_map data.stack_signals data.extracted_artifacts
                (db3, [JStatus.running, JStatus.succeeded])

/-! ### Route handlers (api/routes/chat.py, api/routes/jobs.py)

Each handler additionally returns the ordered list of state-changing and
scheduling steps it performed, so that temporal claims (action before ledger
resolution, background work deferred) can be stated about the order of steps. -/

/-- Observable steps taken by a route handler, in execution order. -/
inductive Ev where
  | sessionEnsured (session_id : Nat)
  | msgAdded (role : String) (content : String)
  | confCreated (confirmation_id : Nat) (tool_name : String)
  | jobCreated (job_id : Nat) (job_type : String) (payload : Payload)
  | candidateCreated
  | resolveApplied (confirmation_id : Nat) (approved : Bool) (found : Bool)
  | bgIngestScheduled (job_id : Nat)
  | bgSummaryScheduled
deriving DecidableEq

/-- Steps that initiate a consequent action for a confirmation (a Job or a
direct workspace write), as opposed to ledger or message bookkeeping. -/
def Ev.isConsequentAction : Ev → Bool
  | .jobCreated _ _ _ => true
  | .candidateCreated => true
  | .bgIngestScheduled _ => true
  | _ => false

/-- True for the ledger-resolution step. -/
def Ev.isResolve : Ev → Bool
  | .resolveApplied _ _ _ => true
  | _ => false

/-- Request body of POST /chat (schemas/common.py ChatRequest). -/
structure ChatRequestM where
  tenant_id : Nat
  user_id : Nat
  session_id : Nat
  message : String
deriving DecidableEq

/-- Response of POST /chat (schemas/common.py ChatResponse, collapsed to the
two shapes the handler actually returns). -/
inductive ChatResponseM where
  | message (content : String)
  | confirmation (prompt : String) (confirmation_id : Nat) (tool_name : String) (payload : Payload)
deriving DecidableEq

/-- Outcome of `AgentService.chat` (services/agent.py): the reasoning engine
either answers directly or requests a gated action.  It is an external
collaborator, so the handler takes it as a parameter. -/
inductive AgentResult where
  | message (content : String)
  | confirmation (prompt : String) (tool_name : String) (payload : Payload)
deriving DecidableEq

/-- chat.py lines 72-80 and 167-175: on approval of an ingest_github
confirmation whose payload has a truthy repo_url, create the Job and schedule
the background ingestion; returns (db, msg, job_id, steps). -/
def ingestApprovalStep (db : DB) (tenant_id user_id : Nat) (payload : Payload) :
    DB × String × Option Nat × List Ev :=
  match pyGet payload "repo_url" with
  | some v =>
      if v.truthy then
        let jobAndDb := JobRepository.create db tenant_id user_id "github_ingestion"
          [("repo_url", v)]
        let job := jobAndDb.1
        (jobAndDb.2, "Ingestion job started. Job ID: " ++ toString job.id, some job.id,
         [Ev.jobCreated job.id "github_ingestion" [("repo_url", v)], Ev.bgIngestScheduled job.id])
      else (db, "Confirmation recorded.", none, [])
  | none => (db, "Confirmation recorded.", none, [])

/-- chat.py lines 81-92 and 176-187: on approval of a save_candidate
confirmation, create the Candidate synchronously. -/
def saveCandidateStep (db : DB) (tenant_id user_id : Nat) (payload : Payload) :
    DB × String × List Ev :=
  let db1 := (CandidateRepository.create db tenant_id user_id
    ((pyGet payload "contact_info").getD (PyVal.dictS []))
    ((pyGet payload "skills").getD (PyVal.listS []))
    ((pyGet payload "experience").getD (PyVal.listS []))
    ((pyGet payload "projects").getD (PyVal.listS []))
    ((pyGet payload "education").getD (PyVal.listS []))
    none).2
  (db1, "Candidate profile saved to workspace.", [Ev.candidateCreated])

/-- chat.py lines 66-99: a pending confirmation exists and the message is a
bare yes/no; act on the approved tool, then resolve, then reply. -/
def chatStructuredResolution (db : DB) (body : ChatRequestM) (pending : Confirmation) :
    ChatResponseM × DB × List Ev :=
  let approved := approved_from_message body.message
  let acted :=
    if approved && (pending.tool_name == "ingest_github") then
      let r := ingestApprovalStep db body.tenant_id body.user_id pending.payload
      (r.1, r.2.1, r.2.2.2)
    else if approved && (pending.tool_name == "save_candidate") then
      saveCandidateStep db body.tenant_id body.user_id pending.payload
    else (db, "Confirmation recorded.", [])
  let resolved := ConfirmationRepository.resolve acted.1 body.tenant_id body.user_id
    body.session_id pending.id approved
  let follow_up := respond_after_confirmation approved acted.2.1
  let db4 := (MessageRepository.add resolved.2 body.tenant_id body.session_id
    "assistant" follow_up).2
  (ChatResponseM.message follow_up, db4,
   acted.2.2 ++ [Ev.resolveApplied pending.id approved resolved.1.isSome,
                 Ev.msgAdded "assistant" follow_up, Ev.bgSummaryScheduled])

/-- chat.py lines 103-120: no structured resolution happened, the message is a
bare yes/no, and the last assistant message matches the GitHub crawl prompt;
resolve synthetically (no ledger row). -/
def chatFallbackResolution (db : DB) (body : ChatRequestM) (repo_url : String) :
    ChatResponseM × DB × List Ev :=
  let approved := approved_from_message body.message
  let acted :=
    if approved then
      let jobAndDb := JobRepository.create db body.tenant_id body.user_id "github_ingestion"
        [("repo_url", PyVal.str repo_url)]
      let job := jobAndDb.1
      (jobAndDb.2, "Ingestion job started. Job ID: " ++ toString job.id,
       [Ev.jobCreated job.id "github_ingestion" [("repo_url", PyVal.str repo_url)],
        Ev.bgIngestScheduled job.id])
    else (db, "Understood, I did not perform that action.", [])
  let follow_up := respond_after_confirmation approved acted.2.1
  let db2 := (MessageRepository.add acted.1 body.tenant_id body.session_id
    "assistant" follow_up).2
  (ChatResponseM.message follow_up, db2,
   acted.2.2 ++ [Ev.msgAdded "assistant" follow_up, Ev.bgSummaryScheduled])

/-- chat.py lines 122-147: consult the reasoning engine; a structured action
request becomes a pending confirmation (no assistant message persisted, no
compaction scheduled); a direct reply is persisted and compaction scheduled. -/
def chatAgentTurn (db : DB) (body : ChatRequestM) (agent_result : AgentResult) :
    ChatResponseM × DB × List Ev :=
  match agent_result with
  | AgentResult.confirmation prompt tool_name payload =>
      let confAndDb := ConfirmationRepository.create_pending db body.tenant_id body.user_id
        body.session_id tool_name payload
      (ChatResponseM.confirmation prompt confAndDb.1.id tool_name payload, confAndDb.2,
       [Ev.confCreated confAndDb.1.id tool_name])
  | AgentResult.message content =>
      let db1 := (MessageRepository.add db body.tenant_id body.session_id "assistant" content).2
      (ChatResponseM.message content, db1,
       [Ev.msgAdded "assistant" content, Ev.bgSummaryScheduled])

/-- chat.py lines 60-61: ensure the session row and append the user message. -/
def chatPrelude (db : DB) (body : ChatRequestM) : DB :=
  (MessageRepository.add
    (SessionRepository.ensure_exists db body.tenant_id body.user_id body.session_id)
    body.tenant_id body.session_id "user" body.message).2

/-- chat.py `chat` (POST /chat).  `agent_result` is the reasoning engine
outcome for this turn, consulted only on the fall-through path. -/
def chat (db : DB) (body : ChatRequestM) (agent_result : AgentResult) :
    ChatResponseM × DB × List Ev :=
  let db2 := chatPrelude db body
  let evs0 := [Ev.sessionEnsured body.session_id, Ev.msgAdded "user" body.message]
  let tail :=
    match ConfirmationRepository.get_pending_for_session db2 body.tenant_id body.user_id
      body.session_id with
    | some pending =>
        if is_yes_no body.message then chatStructuredResolution db2 body pending
        else chatAgentTurn db2 body agent_result
    | none =>
        if is_yes_no body.message then
          let last_assistant := MessageRepository.get_last_assistant_content db2 body.tenant_id
            body.session_id
          match extract_repo_url_from_last_message last_assistant with
          | some repo_url =>
              if !(repo_url == "") then chatFallbackResolution db2 body repo_url
              else chatAgentTurn db2 body agent_result
          | none => chatAgentTurn db2 body agent_result
        else chatAgentTurn db2 body agent_result
  (tail.1, tail.2.1, evs0 ++ tail.2.2)

/-- Request body of POST /confirm (schemas/common.py ConfirmRequest). -/
structure ConfirmRequestM where
  confirmation_id : Nat
  approved : Bool
  tenant_id : Nat
  user_id : Nat
  session_id : Nat
deriving DecidableEq

/-- Response of POST /confirm (schemas/common.py ConfirmResponse). -/
structure ConfirmResponseM where
  success : Bool
  message : String
  next_action : Option String
  job_id : Option Nat
deriving DecidableEq

/-- An HTTPException raised by a handler. -/
inductive ApiError where
  | httpError (status : Nat) (detail : String)
deriving DecidableEq

/-- chat.py `confirm` (POST /confirm): 404 unless the confirmation is found
pending in the caller scope; otherwise act on approval, then resolve, then
persist the follow-up assistant message. -/
def confirm (db : DB) (body : ConfirmRequestM) :
    Except ApiError (ConfirmResponseM × DB × List Ev) :=
  match ConfirmationRepository.get_pending db body.tenant_id body.user_id body.session_id
    body.confirmation_id with
  | none => Except.error (ApiError.httpError 404 "Confirmation not found or already resolved")
  | some conf =>
      let acted :=
        if body.approved && (conf.tool_name == "ingest_github") then
          let r := ingestApprovalStep db body.tenant_id body.user_id conf.payload
          (r.1, r.2.1, r.2.2.1, r.2.2.2)
        else if body.approved && (conf.tool_name == "save_candidate") then
          let r := saveCandidateStep db body.tenant_id body.user_id conf.payload
          (r.1, r.2.1, none, r.2.2)
        else (db, "Confirmation recorded.", none, [])
      let next_action : Option String :=
        if acted.2.2.1.isSome then some "ingest_started"
        else if body.approved && (conf.tool_name == "save_candidate") then some "candidate_saved"
        else none
      let resolved := ConfirmationRepository.resolve acted.1 body.tenant_id body.user_id
        body.session_id body.confirmation_id body.approved
      let follow_up := respond_after_confirmation body.approved acted.2.1
      let db4 := (MessageRepository.add resolved.2 body.tenant_id body.session_id
        "assistant" follow_up).2
      Except.ok
        (⟨true, acted.2.1, next_action, acted.2.2.1⟩, db4,
         acted.2.2.2 ++ [Ev.resolveApplied body.confirmation_id body.approved resolved.1.isSome,
                         Ev.msgAdded "assistant" follow_up])

/-- Response of GET /jobs/{id} (schemas/workspace.py JobStatus). -/
structure JobStatusM where
  id : Nat
  job_type : String
  status : JStatus
  payload : Payload
  result : Option Payload
  error : Option String
  created_at : Nat
  completed_at : Option Nat
deriving DecidableEq

/-- jobs.py `get_job_status` (GET /jobs/{job_id}): 404 unless the job exists in
the caller tenant+user scope. -/
def get_job_status (db : DB) (tenant_id user_id job_id : Nat) :
    Except ApiError JobStatusM :=
  match JobRepository.get db tenant_id user_id job_id with
  | none => Except.error (ApiError.httpError 404 "Job not found")
  | some job =>
      Except.ok ⟨job.id, job.job_type, job.status, job.payload, job.result, job.error,
        job.created_at, job.completed_at⟩

/-! ### Interleaving operations

`Op` is the alphabet of state-changing logical operations the backend can run
against one store; it is used to state trace properties ("after X, any later Y
...") closed under everything the system itself may do in between. -/

/-- One state-changing operation of the backend. -/
inductive Op where
  | ensureSession (tenant_id user_id session_id : Nat)
  | addMessage (tenant_id session_id : Nat) (role content : String)
  | upsertSummary (tenant_id session_id : Nat) (text : String)
  | createPending (tenant_id user_id session_id : Nat) (tool_name : String) (payload : Payload)
  | resolveConfirmation (tenant_id user_id session_id confirmation_id : Nat) (approved : Bool)
  | createJob (tenant_id user_id : Nat) (job_type : String) (payload : Payload)
  | runIngest (job_id : Nat)
  | createCandidate (tenant_id user_id : Nat) (ci sk ex pr ed : PyVal)
  | upsertRepo (tenant_id user_id : Nat) (url : String) (data : IngestData)

/-- Apply one operation (`ingest` interprets the external fetcher). -/
def applyOp (ingest : String → Except String IngestData) (db : DB) : Op → DB
  | .ensureSession t u s => SessionRepository.ensure_exists db t u s
  | .addMessage t s r c => (MessageRepository.add db t s r c).2
  | .upsertSummary t s x => SessionSummaryRepository.upsert db t s x
  | .createPending t u s tool p => (ConfirmationRepository.create_pending db t u s tool p).2
  | .resolveConfirmation t u s cid a => (ConfirmationRepository.resolve db t u s cid a).2
  | .createJob t u ty p => (JobRepository.create db t u ty p).2
  | .runIngest jid => (run_github_ingestion_job db jid ingest).1
  | .createCandidate t u a b c d e => (CandidateRepository.create db t u a b c d e none).2
  | .upsertRepo t u url d =>
      RepositoryRepository.create_or_update db t u url d.metadata_ d.file_map d.stack_signals
        d.extracted_artifacts

/-- Apply a sequence of operations left to right. -/
def applyOps (ingest : String → Except String IngestData) (db : DB) (ops : List Op) : DB :=
  ops.foldl (applyOp ingest) db

/-! ### Well-formedness: unique primary keys below the id counter -/

/-- Database well-formedness: confirmation and job primary keys are pairwise
distinct and below the fresh-id counter.  This holds for every store the
backend itself builds (keys come from a uuid generator). -/
def WF (db : DB) : Prop :=
  (db.confirmations.map (fun c => c.id)).Nodup ∧
  (∀ c ∈ db.confirmations, c.id < db.nextId) ∧
  (db.jobs.map (fun j => j.id)).Nodup ∧
  (∀ j ∈ db.jobs, j.id < db.nextId)

instance (db : DB) : Decidable (WF db) := by
  unfold WF
  infer_instance

/-- Lookup of a confirmation row by primary key, ignoring scope and status. -/
def confById (db : DB) (cid : Nat) : Option Confirmation :=
  db.confirmations.find? (fun c => c.id == cid)

/-- Lookup of a job row by primary key, ignoring scope. -/
def jobById (db : DB) (jid : Nat) : Option Job :=
  db.jobs.find? (fun j => j.id == jid)

/-! ### Generic list lemmas -/

theorem find?_append_of_some {α : Type} {p : α → Bool} {l1 : List α} (l2 : List α) {a : α}
    (h : l1.find? p = some a) : (l1 ++ l2).find? p = some a := by
  induction l1 with
  | nil => exact absurd h (by simp)
  | cons x xs ih =>
      rw [List.cons_append]
      cases hx : p x with
      | true =>
          rw [List.find?_cons_of_pos _ hx] at h
          rw [List.find?_cons_of_pos _ hx]
          exact h
      | false =>
          rw [List.find?_cons_of_neg _ (by simp [hx])] at h
          rw [List.find?_cons_of_neg _ (by simp [hx])]
          exact ih h

theorem map_comp_of_update {α β : Type} (f : α → β) (upd : α → α) (l : List α)
    (h : ∀ x, f (upd x) = f x) : (l.map upd).map f = l.map f := by
  induction l with
  | nil => rfl
  | cons x xs ih => simp [h, ih]

/-- In a list with pairwise-distinct keys, `find?` by key returns any member
holding that key. -/
theorem find?_key_of_mem_nodup {α : Type} (key : α → Nat) {l : List α} {x : α} {k : Nat}
    (hnd : (l.map key).Nodup) (hx : x ∈ l) (hk : key x = k) :
    l.find? (fun y => key y == k) = some x := by
  induction l with
  | nil => simp at hx
  | cons y ys ih =>
      rw [List.map_cons, List.nodup_cons] at hnd
      rcases List.mem_cons.mp hx with rfl | hmem
      · exact List.find?_cons_of_pos _ (by simp [hk])
      · have hyk : key y ≠ k := by
          intro heq
          apply hnd.1
          have hmk : key x ∈ ys.map key := List.mem_map_of_mem key hmem
          rw [hk] at hmk
          rw [heq]
          exact hmk
        rw [List.find?_cons_of_neg _ (by simp [hyk])]
        exact ih hnd.2 hmem

/-- Updating the rows holding key `k2` leaves `find?` by a different key `k`
unchanged, provided the replacement also holds key `k2`. -/
theorem find?_key_map_update_ne {α : Type} (key : α → Nat) (l : List α) (r : α)
    (k k2 : Nat) (hr : key r = k2) (hne : k ≠ k2) :
    (l.map (fun x => if key x == k2 then r else x)).find? (fun y => key y == k)
      = l.find? (fun y => key y == k) := by
  induction l with
  | nil => rfl
  | cons x xs ih =>
      rw [List.map_cons]
      by_cases hx : key x = k2
      · have h1 : (if key x == k2 then r else x) = r := by simp [hx]
        rw [h1]
        rw [List.find?_cons_of_neg _ (by simp [hr]; exact Ne.symm hne)]
        rw [List.find?_cons_of_neg _ (by simp [hx]; exact Ne.symm hne)]
        exact ih
      · have h1 : (if key x == k2 then r else x) = x := by simp [hx]
        rw [h1]
        by_cases hxk : key x = k
        · rw [List.find?_cons_of_pos _ (by simp [hxk]),
              List.find?_cons_of_pos _ (by simp [hxk])]
        · rw [List.find?_cons_of_neg _ (by simp [hxk]),
              List.find?_cons_of_neg _ (by simp [hxk])]
          exact ih

/-- Two members of a list with pairwise-distinct keys sharing a key are equal. -/
theorem key_unique_of_nodup {α : Type} (key : α → Nat) {l : List α} {x y : α}
    (hnd : (l.map key).Nodup) (hx : x ∈ l) (hy : y ∈ l) (hxy : key x = key y) : x = y := by
  have h1 := find?_key_of_mem_nodup key hnd hx rfl
  have h2 := find?_key_of_mem_nodup key hnd hy hxy.symm
  rw [h1] at h2
  exact Option.some.inj h2

/-! ### Concrete sample stores used by the witnesses -/

/-- The empty store. -/
def dbEmpty : DB := ⟨[], [], [], [], [], [], [], 0, 0⟩

/-- Store holding one pending ingest_github confirmation
(id 0, tenant 1, user 2, session 3, repo_url github.com/acme/widget). -/
def dbPendingIngest : DB :=
  (ConfirmationRepository.create_pending dbEmpty 1 2 3 "ingest_github"
    [("repo_url", PyVal.str "github.com/acme/widget")]).2

/-- Store holding one ingest_github confirmation already resolved to approved. -/
def dbResolvedIngest : DB :=
  (ConfirmationRepository.resolve dbPendingIngest 1 2 3 0 true).2

/-! ### Claim C6 -/

/-- Claim C6: `get_pending(id)` returns a confirmation only when the id exists
with the caller tenant, user and session and its status is pending; for an id
that exists but is already resolved it returns the same not-found outcome as
for a nonexistent id, and the confirm endpoint answers both with the very same
404 error, exposing no distinction. -/
theorem get_pending_scoped_and_resolved_hidden (db : DB) (t u s cid : Nat) :
    (∀ c, ConfirmationRepository.get_pending db t u s cid = some c →
      c ∈ db.confirmations ∧ c.id = cid ∧ c.tenant_id = t ∧ c.user_id = u ∧
      c.session_id = s ∧ c.status = CStatus.pending) ∧
    (WF db → ∀ c ∈ db.confirmations, c.id = cid → c.status ≠ CStatus.pending →
      ConfirmationRepository.get_pending db t u s cid = none ∧
      confirm db ⟨cid, true, t, u, s⟩ =
        Except.error (ApiError.httpError 404 "Confirmation not found or already resolved") ∧
      confirm db ⟨cid, false, t, u, s⟩ =
        Except.error (ApiError.httpError 404 "Confirmation not found or already resolved")) ∧
    ((∀ c ∈ db.confirmations, c.id ≠ cid) →
      ConfirmationRepository.get_pending db t u s cid = none ∧
      confirm db ⟨cid, true, t, u, s⟩ =
        Except.error (ApiError.httpError 404 "Confirmation not found or already resolved") ∧
      confirm db ⟨cid, false, t, u, s⟩ =
        Except.error (ApiError.httpError 404 "Confirmation not found or already resolved")) := by
  refine ⟨?_, ?_, ?_⟩
  · intro c hc
    have hmem := List.mem_of_find?_eq_some hc
    have hpred := List.find?_some hc
    simp only [ConfirmationRepository.pendingPred, Bool.and_eq_true, beq_iff_eq] at hpred
    exact ⟨hmem, hpred.1.1.1.1, hpred.1.1.1.2, hpred.1.1.2, hpred.1.2, hpred.2⟩
  · intro hwf c hmem hid hnp
    have hnone : ConfirmationRepository.get_pending db t u s cid = none := by
      apply List.find?_eq_none.mpr
      intro x hx hpx
      simp only [ConfirmationRepository.pendingPred, Bool.and_eq_true, beq_iff_eq] at hpx
      have hxc : x = c :=
        key_unique_of_nodup (fun y => y.id) hwf.1 hx hmem
          (by show x.id = c.id; rw [hpx.1.1.1.1, hid])
      rw [hxc] at hpx
      exact hnp hpx.2
    refine ⟨hnone, ?_, ?_⟩ <;> simp only [confirm, hnone]
  · intro hno
    have hnone : ConfirmationRepository.get_pending db t u s cid = none := by
      apply List.find?_eq_none.mpr
      intro x hx hpx
      simp only [ConfirmationRepository.pendingPred, Bool.and_eq_true, beq_iff_eq] at hpx
      exact hno x hx hpx.1.1.1.1
    refine ⟨hnone, ?_, ?_⟩ <;> simp only [confirm, hnone]

/-- Witness for C6 on a concrete store: an already-resolved id and a
nonexistent id both answer not-found through the endpoint. -/
theorem get_pending_scoped_and_resolved_hidden_witness :
    ConfirmationRepository.get_pending dbResolvedIngest 1 2 3 0 = none ∧
    confirm dbResolvedIngest ⟨0, true, 1, 2, 3⟩ =
      Except.error (ApiError.httpError 404 "Confirmation not found or already resolved") ∧
    confirm dbResolvedIngest ⟨0, false, 1, 2, 3⟩ =
      Except.error (ApiError.httpError 404 "Confirmation not found or already resolved") :=
  (get_pending_scoped_and_resolved_hidden dbResolvedIngest 1 2 3 0).2.1 (by decide)
    { id := 0, tenant_id := 1, user_id := 2, session_id := 3, tool_name := "ingest_github",
      payload := [("repo_url", PyVal.str "github.com/acme/widget")],
      status := CStatus.approved, created_at := 0, resolved_at := some 1 }
    (by decide) (by decide) (by decide)

/-! ### Claim C8 -/

/-- The jobs of the store owned by the caller tenant+user (the only rows any
caller-scoped query may depend on). -/
def ownedJobs (db : DB) (tenant_id user_id : Nat) : List Job :=
  db.jobs.filter (fun j => j.tenant_id == tenant_id && j.user_id == user_id)

theorem find?_scoped_eq_filter (l : List Job) (t u jid : Nat) :
    l.find? (fun j => j.id == jid && j.tenant_id == t && j.user_id == u)
      = (l.filter (fun j => j.tenant_id == t && j.user_id == u)).find?
          (fun j => j.id == jid) := by
  induction l with
  | nil => rfl
  | cons x xs ih =>
      by_cases ho : (x.tenant_id == t && x.user_id == u) = true
      · have hfc : List.filter (fun j => j.tenant_id == t && j.user_id == u) (x :: xs)
            = x :: List.filter (fun j => j.tenant_id == t && j.user_id == u) xs :=
          List.filter_cons_of_pos ho
        rw [hfc]
        by_cases hid : (x.id == jid) = true
        · have hf2 : List.find? (fun j => j.id == jid)
              (x :: List.filter (fun j => j.tenant_id == t && j.user_id == u) xs) = some x :=
            List.find?_cons_of_pos _ hid
          rw [List.find?_cons_of_pos _ (by simp_all), hf2]
        · have hf2 : List.find? (fun j => j.id == jid)
              (x :: List.filter (fun j => j.tenant_id == t && j.user_id == u) xs)
              = List.find? (fun j => j.id == jid)
                  (List.filter (fun j => j.tenant_id == t && j.user_id == u) xs) :=
            List.find?_cons_of_neg _ (by simp_all)
          rw [List.find?_cons_of_neg _ (by simp_all), hf2]
          exact ih
      · have hfc : List.filter (fun j => j.tenant_id == t && j.user_id == u) (x :: xs)
            = List.filter (fun j => j.tenant_id == t && j.user_id == u) xs :=
          List.filter_cons_of_neg (by simpa using ho)
        rw [hfc, List.find?_cons_of_neg _ (by simp_all)]
        exact ih

/-- `JobRepository.get` factors through the caller-owned jobs. -/
theorem jobrepo_get_eq_owned (db : DB) (t u jid : Nat) :
    JobRepository.get db t u jid = (ownedJobs db t u).find? (fun j => j.id == jid) :=
  find?_scoped_eq_filter db.jobs t u jid

/-- Claim C8: querying a job owned by a different tenant or user answers
not-found, never the true status, and the whole answer of the job-status query
depends only on the jobs owned by the caller tenant+user. -/
theorem job_status_tenant_isolated :
    (∀ (db : DB) (t u jid : Nat) (j : Job), WF db → j ∈ db.jobs → j.id = jid →
      (j.tenant_id ≠ t ∨ j.user_id ≠ u) →
      get_job_status db t u jid = Except.error (ApiError.httpError 404 "Job not found")) ∧
    (∀ (db1 db2 : DB) (t u : Nat), ownedJobs db1 t u = ownedJobs db2 t u →
      ∀ jid, get_job_status db1 t u jid = get_job_status db2 t u jid) := by
  constructor
  · intro db t u jid j hwf hmem hid hne
    have hnone : JobRepository.get db t u jid = none := by
      apply List.find?_eq_none.mpr
      intro x hx hpx
      simp only [Bool.and_eq_true, beq_iff_eq] at hpx
      have hxj : x = j :=
        key_unique_of_nodup (fun y => y.id) hwf.2.2.1 hx hmem
          (by show x.id = j.id; rw [hpx.1.1, hid])
      rcases hne with hne | hne
      · exact hne (by rw [← hxj]; exact hpx.1.2)
      · exact hne (by rw [← hxj]; exact hpx.2)
    simp only [get_job_status, hnone]
  · intro db1 db2 t u h jid
    simp only [get_job_status, jobrepo_get_eq_owned, h]

/-- Witness for C8 on concrete stores: a foreign-tenant job answers 404, and
two stores differing only in foreign jobs answer identically. -/
theorem job_status_tenant_isolated_witness :
    get_job_status (JobRepository.create dbEmpty 1 2 "github_ingestion" []).2 9 2 0 =
      Except.error (ApiError.httpError 404 "Job not found") ∧
    get_job_status (JobRepository.create dbEmpty 1 2 "github_ingestion" []).2 9 9 0 =
      get_job_status dbEmpty 9 9 0 :=
  ⟨job_status_tenant_isolated.1 (JobRepository.create dbEmpty 1 2 "github_ingestion" []).2
      9 2 0 ⟨0, 1, 2, "github_ingestion", JStatus.queued, [], none, none, 0, none, none⟩
      (by decide) (by decide) (by decide) (Or.inl (by decide)),
   job_status_tenant_isolated.2 (JobRepository.create dbEmpty 1 2 "github_ingestion" []).2
      dbEmpty 9 9 (by decide) 0⟩

/-! ### Claim C4 -/

/-- Mapping a key-preserving function over a list with pairwise-distinct keys
commutes with `find?` by key. -/
theorem find?_key_map_of_key_preserving {α : Type} (key : α → Nat) (g : α → α)
    {l : List α} {k : Nat} {x : α} (x2 : α)
    (hnd : (l.map key).Nodup) (hfind : l.find? (fun y => key y == k) = some x)
    (hg : ∀ y, key (g y) = key y) (hgx : g x = x2) :
    (l.map g).find? (fun y => key y == k) = some x2 := by
  rw [← hgx]
  apply find?_key_of_mem_nodup
  · rw [map_comp_of_update key g l hg]
    exact hnd
  · exact List.mem_map_of_mem g (List.mem_of_find?_eq_some hfind)
  · show key (g x) = k
    rw [hg]
    have hx := List.find?_some hfind
    simpa using hx

/-- `create_or_update` touches only the repos list and the clock. -/
theorem create_or_update_jobs (db : DB) (t u : Nat) (url : String) (m fm ss ea : PyVal) :
    (RepositoryRepository.create_or_update db t u url m fm ss ea).jobs = db.jobs := by
  cases h : RepositoryRepository.get_by_url db t u url <;>
    simp [RepositoryRepository.create_or_update, h]

/-- A store with one queued github_ingestion job (id 0, tenant 1, user 2). -/
def dbQueuedJob : DB :=
  (JobRepository.create dbEmpty 1 2 "github_ingestion" [("repo_url", PyVal.str "u")]).2

/-- A fetcher that always succeeds with empty data. -/
def ingestOk : String → Except String IngestData :=
  fun _ => Except.ok ⟨PyVal.dictS [], PyVal.dictS [], PyVal.listS [], PyVal.dictS []⟩

/-- A fetcher that always raises. -/
def ingestErr : String → Except String IngestData :=
  fun _ => Except.error "rate limited"

/-- Claim C4: a job is created queued; picking up a missing or non-queued job
is a no-op; picking up a queued job writes running and then exactly one of
succeeded (fetch ok) or failed (fetch raised), so every execution's status
sequence is queued,running,succeeded or queued,running,failed, and no trace
ever contains both terminal statuses. -/
theorem job_status_lifecycle :
    (∀ (db : DB) (t u : Nat) (ty : String) (p : Payload),
      (JobRepository.create db t u ty p).1.status = JStatus.queued) ∧
    (∀ (db : DB) (jid : Nat) (ingest : String → Except String IngestData),
      jobById db jid = none → run_github_ingestion_job db jid ingest = (db, [])) ∧
    (∀ (db : DB) (jid : Nat) (ingest : String → Except String IngestData) (j : Job),
      jobById db jid = some j → j.status ≠ JStatus.queued →
      run_github_ingestion_job db jid ingest = (db, [])) ∧
    (∀ (db : DB) (jid : Nat) (ingest : String → Except String IngestData) (j : Job)
      (d : IngestData),
      WF db → jobById db jid = some j → j.status = JStatus.queued →
      ingest (payloadRepoUrl j.payload) = Except.ok d →
      (run_github_ingestion_job db jid ingest).2 = [JStatus.running, JStatus.succeeded] ∧
      ∃ j2, jobById (run_github_ingestion_job db jid ingest).1 jid = some j2 ∧
        j2.status = JStatus.succeeded ∧ j2.started_at = some db.now ∧
        j2.completed_at = some (db.now + 1)) ∧
    (∀ (db : DB) (jid : Nat) (ingest : String → Except String IngestData) (j : Job)
      (e : String),
      WF db → jobById db jid = some j → j.status = JStatus.queued →
      ingest (payloadRepoUrl j.payload) = Except.error e →
      (run_github_ingestion_job db jid ingest).2 = [JStatus.running, JStatus.failed] ∧
      ∃ j2, jobById (run_github_ingestion_job db jid ingest).1 jid = some j2 ∧
        j2.status = JStatus.failed ∧ j2.error = some e) ∧
    (∀ (db : DB) (jid : Nat) (ingest : String → Except String IngestData),
      ¬(JStatus.succeeded ∈ (run_github_ingestion_job db jid ingest).2 ∧
        JStatus.failed ∈ (run_github_ingestion_job db jid ingest).2)) := by
  refine ⟨?_, ?_, ?_, ?_, ?_, ?_⟩
  · intro db t u ty p
    rfl
  · intro db jid ingest hnone
    unfold jobById at hnone
    unfold run_github_ingestion_job
    rw [hnone]
  · intro db jid ingest j hfind hnq
    unfold jobById at hfind
    unfold run_github_ingestion_job
    rw [hfind]
    have : (j.status == JStatus.queued) = false := by
      simpa using hnq
    simp [this]
  · intro db jid ingest j d hwf hfind hq hing
    unfold jobById at hfind
    have hbq : (j.status == JStatus.queued) = true := by simpa using hq
    have hjid : (j.id == jid) = true := by
      have h := List.find?_some hfind
      simpa using h
    have hrun := find?_key_map_of_key_preserving (fun y : Job => y.id)
      (fun x : Job =>
        if x.id == jid then { x with status := JStatus.running, started_at := some db.now }
        else x)
      { j with status := JStatus.running, started_at := some db.now } hwf.2.2.1 hfind
      (by intro y; by_cases hy : (y.id == jid) = true <;> simp [hy])
      (by simp [hjid])
    have hnd2 : ((db.jobs.map (fun x : Job =>
        if x.id == jid then { x with status := JStatus.running, started_at := some db.now }
        else x)).map (fun y : Job => y.id)).Nodup := by
      rw [map_comp_of_update (fun y : Job => y.id) _ db.jobs
        (by intro y; by_cases hy : (y.id == jid) = true <;> simp [hy])]
      exact hwf.2.2.1
    have hdone := find?_key_map_of_key_preserving (fun y : Job => y.id)
      (fun x : Job => if x.id == jid then
          { x with status := JStatus.succeeded,
                   result := some [("repo_url", PyVal.str (payloadRepoUrl j.payload)),
                                   ("ingested", PyVal.boolV true)],
                   completed_at := some (db.now + 1) }
        else x)
      { j with status := JStatus.succeeded,
               result := some [("repo_url", PyVal.str (payloadRepoUrl j.payload)),
                               ("ingested", PyVal.boolV true)],
               started_at := some db.now, completed_at := some (db.now + 1) } hnd2 hrun
      (by intro y; by_cases hy : (y.id == jid) = true <;> simp [hy])
      (by simp [hjid])
    simp only [run_github_ingestion_job, hfind, hbq, Bool.not_true, Bool.false_eq_true,
      if_false, hing, hrun]
    constructor
    · trivial
    · apply Exists.intro
      constructor
      · show jobById _ jid = _
        unfold jobById
        rw [create_or_update_jobs]
        exact hdone
      · exact ⟨rfl, rfl, rfl⟩
  · intro db jid ingest j e hwf hfind hq hing
    unfold jobById at hfind
    have hbq : (j.status == JStatus.queued) = true := by simpa using hq
    have hjid : (j.id == jid) = true := by
      have h := List.find?_some hfind
      simpa using h
    have hrun := find?_key_map_of_key_preserving (fun y : Job => y.id)
      (fun x : Job =>
        if x.id == jid then { x with status := JStatus.running, started_at := some db.now }
        else x)
      { j with status := JStatus.running, started_at := some db.now } hwf.2.2.1 hfind
      (by intro y; by_cases hy : (y.id == jid) = true <;> simp [hy])
      (by simp [hjid])
    have hnd2 : ((db.jobs.map (fun x : Job =>
        if x.id == jid then { x with status := JStatus.running, started_at := some db.now }
        else x)).map (fun y : Job => y.id)).Nodup := by
      rw [map_comp_of_update (fun y : Job => y.id) _ db.jobs
        (by intro y; by_cases hy : (y.id == jid) = true <;> simp [hy])]
      exact hwf.2.2.1
    have hdone := find?_key_map_of_key_preserving (fun y : Job => y.id)
      (fun x : Job => if x.id == jid then
          { x with status := JStatus.failed, error := some e, completed_at := some (db.now + 1) }
        else x)
      { j with status := JStatus.failed, error := some e, started_at := some db.now,
               completed_at := some (db.now + 1) } hnd2 hrun
      (by intro y; by_cases hy : (y.id == jid) = true <;> simp [hy])
      (by simp [hjid])
    simp only [run_github_ingestion_job, hfind, hbq, Bool.not_true, Bool.false_eq_true,
      if_false, hing, hrun]
    constructor
    · trivial
    · apply Exists.intro
      constructor
      · show jobById _ jid = _
        unfold jobById
        exact hdone
      · exact ⟨rfl, rfl⟩
  · intro db jid ingest
    unfold run_github_ingestion_job
    split
    · simp
    next j hfind =>
      split
      · simp
      · cases hI : ingest (payloadRepoUrl j.payload) with
        | error e =>
            simp only [hI]
            split <;> simp
        | ok d =>
            simp only [hI]
            split <;> simp

/-- Witness for C4 on the concrete queued-job store: the success run traces
running,succeeded; the failure run traces running,failed and records the error;
picking the already-failed job up again is a no-op. -/
theorem job_status_lifecycle_witness :
    ((run_github_ingestion_job dbQueuedJob 0 ingestOk).2 =
        [JStatus.running, JStatus.succeeded] ∧
      ∃ j2, jobById (run_github_ingestion_job dbQueuedJob 0 ingestOk).1 0 = some j2 ∧
        j2.status = JStatus.succeeded ∧ j2.started_at = some dbQueuedJob.now ∧
        j2.completed_at = some (dbQueuedJob.now + 1)) ∧
    ((run_github_ingestion_job dbQueuedJob 0 ingestErr).2 =
        [JStatus.running, JStatus.failed] ∧
      ∃ j2, jobById (run_github_ingestion_job dbQueuedJob 0 ingestErr).1 0 = some j2 ∧
        j2.status = JStatus.failed ∧ j2.error = some "rate limited") ∧
    run_github_ingestion_job (run_github_ingestion_job dbQueuedJob 0 ingestErr).1 0 ingestOk
      = ((run_github_ingestion_job dbQueuedJob 0 ingestErr).1, []) :=
  ⟨job_status_lifecycle.2.2.2.1 dbQueuedJob 0 ingestOk
      ⟨0, 1, 2, "github_ingestion", JStatus.queued, [("repo_url", PyVal.str "u")],
        none, none, 0, none, none⟩
      ⟨PyVal.dictS [], PyVal.dictS [], PyVal.listS [], PyVal.dictS []⟩
      (by decide) (by decide) (by decide) rfl,
   job_status_lifecycle.2.2.2.2.1 dbQueuedJob 0 ingestErr
      ⟨0, 1, 2, "github_ingestion", JStatus.queued, [("repo_url", PyVal.str "u")],
        none, none, 0, none, none⟩
      "rate limited" (by decide) (by decide) (by decide) rfl,
   job_status_lifecycle.2.2.1 (run_github_ingestion_job dbQueuedJob 0 ingestErr).1 0 ingestOk
      ⟨0, 1, 2, "github_ingestion", JStatus.failed, [("repo_url", PyVal.str "u")],
        none, some "rate limited", 0, some 1, some 2⟩
      (by decide) (by decide)⟩

/-! ### Claim C5 -/

theorem length_insertByCreated (m : Message) (l : List Message) :
    (MessageRepository.insertByCreated m l).length = l.length + 1 := by
  induction l with
  | nil => rfl
  | cons x xs ih =>
      unfold MessageRepository.insertByCreated
      by_cases h : m.created_at ≤ x.created_at <;> simp [h, ih]

theorem length_sortByCreated (l : List Message) :
    (MessageRepository.sortByCreated l).length = l.length := by
  induction l with
  | nil => rfl
  | cons x xs ih => simp [MessageRepository.sortByCreated, length_insertByCreated, ih]

/-- The per-message rendering of summary.py line 32. -/
def renderForSummary (ms : List Message) : String :=
  String.intercalate "\n" (ms.map (fun m => m.role ++ ": " ++ pyTake m.content 500))

/-- Claim C5 as amended: when the stored message count N of the session is at
most 2W the compaction step returns the store untouched and calls no
summarizer; when the key is configured, W ≥ 1 and N ≥ 2W+1, exactly one
summarizer call is made, on precisely the oldest W messages rendered
oldest-first as role-prefixed lines truncated to 500 characters each, and the
session summary is upserted from its result. -/
theorem compaction_window_threshold
    (db : DB) (has_api_key : Bool) (window : Nat) (summarize : String → String)
    (tenant_id session_id : Nat) :
    (MessageRepository.count db tenant_id session_id ≤ 2 * window →
      update_session_summary_if_needed db has_api_key window summarize tenant_id session_id
        = (db, none)) ∧
    (has_api_key = true → 1 ≤ window →
      2 * window < MessageRepository.count db tenant_id session_id →
      update_session_summary_if_needed db has_api_key window summarize tenant_id session_id
        = (SessionSummaryRepository.upsert db tenant_id session_id
            (summarize (renderForSummary
              (MessageRepository.get_oldest db tenant_id session_id window))),
           some (renderForSummary
              (MessageRepository.get_oldest db tenant_id session_id window)))) := by
  constructor
  · intro hle
    cases has_api_key with
    | false => rfl
    | true =>
        unfold update_session_summary_if_needed
        simp [hle]
  · intro hkey hw hgt
    subst hkey
    have hne : (MessageRepository.get_oldest db tenant_id session_id window).isEmpty = false := by
      unfold MessageRepository.get_oldest
      rw [List.isEmpty_eq_false_iff_exists_mem]
      have hlen : (MessageRepository.sortByCreated
          (MessageRepository.sessionMessages db tenant_id session_id)).length
          = MessageRepository.count db tenant_id session_id :=
        length_sortByCreated _
      have hpos : 0 < ((MessageRepository.sortByCreated
          (MessageRepository.sessionMessages db tenant_id session_id)).take window).length := by
        rw [List.length_take, hlen]
        omega
      rcases List.exists_mem_of_length_pos hpos with ⟨m, hm⟩
      exact ⟨m, hm⟩
    unfold update_session_summary_if_needed
    rw [if_neg (by simp)]
    rw [if_neg (by omega)]
    rw [if_neg (by simp [hne])]
    rfl

/-- Concrete store: one message in session 3 of tenant 1. -/
def dbOneMsg : DB :=
  (MessageRepository.add dbEmpty 1 3 "user" "hello").2

/-- Counterexample to C5 as stated: with window size W = 0 and N = 1 stored
message, N ≥ 2W+1 (the count crosses the threshold), yet the code makes no
compaction call and leaves the store untouched, because the guard on the empty
oldest-W block returns early. -/
theorem compaction_window_zero_counterexample :
    MessageRepository.count dbOneMsg 1 3 = 1 ∧
    2 * 0 + 1 ≤ MessageRepository.count dbOneMsg 1 3 ∧
    (update_session_summary_if_needed dbOneMsg true 0 (fun t => "S:" ++ t) 1 3).2 = none ∧
    (update_session_summary_if_needed dbOneMsg true 0 (fun t => "S:" ++ t) 1 3).1 = dbOneMsg := by
  refine ⟨by decide, by decide, ?_, ?_⟩ <;> rfl

/-- Concrete store: five messages m0..m4 with alternating roles. -/
def dbFiveMsgs : DB :=
  (MessageRepository.add
    (MessageRepository.add
      (MessageRepository.add
        (MessageRepository.add
          (MessageRepository.add dbEmpty 1 3 "user" "m0").2
          1 3 "assistant" "m1").2
        1 3 "user" "m2").2
      1 3 "assistant" "m3").2
    1 3 "user" "m4").2

/-- Witness for C5 (amended) at N = 5: window 3 leaves the store untouched
(5 is at most 6), window 2 makes exactly one call on the two oldest messages. -/
theorem compaction_window_threshold_witness :
    update_session_summary_if_needed dbFiveMsgs true 3 (fun t => "S:" ++ t) 1 3
      = (dbFiveMsgs, none) ∧
    (update_session_summary_if_needed dbFiveMsgs true 2 (fun t => "S:" ++ t) 1 3).2
      = some "user: m0\nassistant: m1" := by
  constructor
  · exact (compaction_window_threshold dbFiveMsgs true 3 (fun t => "S:" ++ t) 1 3).1 (by decide)
  · rw [(compaction_window_threshold dbFiveMsgs true 2 (fun t => "S:" ++ t) 1 3).2 rfl
      (by decide) (by decide)]
    rfl


/-! ### Frame and reduction lemmas for the chat handler -/

theorem confirmations_ensure (db : DB) (t u s : Nat) :
    (SessionRepository.ensure_exists db t u s).confirmations = db.confirmations := by
  unfold SessionRepository.ensure_exists
  split <;> rfl

theorem jobs_ensure (db : DB) (t u s : Nat) :
    (SessionRepository.ensure_exists db t u s).jobs = db.jobs := by
  unfold SessionRepository.ensure_exists
  split <;> rfl

theorem candidates_ensure (db : DB) (t u s : Nat) :
    (SessionRepository.ensure_exists db t u s).candidates = db.candidates := by
  unfold SessionRepository.ensure_exists
  split <;> rfl

theorem repos_ensure (db : DB) (t u s : Nat) :
    (SessionRepository.ensure_exists db t u s).repos = db.repos := by
  unfold SessionRepository.ensure_exists
  split <;> rfl

theorem nextId_ensure (db : DB) (t u s : Nat) :
    (SessionRepository.ensure_exists db t u s).nextId = db.nextId := by
  unfold SessionRepository.ensure_exists
  split <;> rfl

theorem chatPrelude_confirmations (db : DB) (body : ChatRequestM) :
    (chatPrelude db body).confirmations = db.confirmations := by
  unfold chatPrelude
  show (SessionRepository.ensure_exists db body.tenant_id body.user_id
    body.session_id).confirmations = db.confirmations
  exact confirmations_ensure db body.tenant_id body.user_id body.session_id

theorem chatPrelude_jobs (db : DB) (body : ChatRequestM) :
    (chatPrelude db body).jobs = db.jobs := by
  unfold chatPrelude
  show (SessionRepository.ensure_exists db body.tenant_id body.user_id
    body.session_id).jobs = db.jobs
  exact jobs_ensure db body.tenant_id body.user_id body.session_id

theorem chatPrelude_candidates (db : DB) (body : ChatRequestM) :
    (chatPrelude db body).candidates = db.candidates := by
  unfold chatPrelude
  show (SessionRepository.ensure_exists db body.tenant_id body.user_id
    body.session_id).candidates = db.candidates
  exact candidates_ensure db body.tenant_id body.user_id body.session_id

theorem chatPrelude_repos (db : DB) (body : ChatRequestM) :
    (chatPrelude db body).repos = db.repos := by
  unfold chatPrelude
  show (SessionRepository.ensure_exists db body.tenant_id body.user_id
    body.session_id).repos = db.repos
  exact repos_ensure db body.tenant_id body.user_id body.session_id

theorem chatPrelude_nextId (db : DB) (body : ChatRequestM) :
    (chatPrelude db body).nextId = db.nextId := by
  unfold chatPrelude
  show (SessionRepository.ensure_exists db body.tenant_id body.user_id
    body.session_id).nextId = db.nextId
  exact nextId_ensure db body.tenant_id body.user_id body.session_id

theorem WF_chatPrelude (db : DB) (body : ChatRequestM) (hwf : WF db) :
    WF (chatPrelude db body) := by
  unfold WF
  rw [chatPrelude_confirmations, chatPrelude_jobs, chatPrelude_nextId]
  exact hwf

/-- Creating a job preserves well-formedness (the new primary key is fresh). -/
theorem WF_jobCreate (db : DB) (t u : Nat) (ty : String) (p : Payload) (hwf : WF db) :
    WF ((JobRepository.create db t u ty p).2) := by
  obtain ⟨h1, h2, h3, h4⟩ := hwf
  refine ⟨h1, ?_, ?_, ?_⟩
  · intro c hc
    exact Nat.lt_succ_of_lt (h2 c hc)
  · show ((db.jobs ++
        [(⟨db.nextId, t, u, ty, JStatus.queued, p, none, none, db.now, none, none⟩ : Job)]).map
        (fun j => j.id)).Nodup
    rw [List.map_append, List.nodup_append]
    refine ⟨h3, List.nodup_singleton _, ?_⟩
    intro a ha hb
    simp only [List.map_cons, List.map_nil, List.mem_singleton] at hb
    rcases List.mem_map.mp ha with ⟨j, hj, rfl⟩
    have := h4 j hj
    omega
  · intro j hj
    rcases List.mem_append.mp hj with hj | hj
    · exact Nat.lt_succ_of_lt (h4 j hj)
    · simp only [List.mem_singleton] at hj
      subst hj
      exact Nat.lt_succ_self _

theorem jobCreate_confirmations (db : DB) (t u : Nat) (ty : String) (p : Payload) :
    ((JobRepository.create db t u ty p).2).confirmations = db.confirmations := rfl

theorem gpfs_chatPrelude (db : DB) (body : ChatRequestM) (t u s : Nat) :
    ConfirmationRepository.get_pending_for_session (chatPrelude db body) t u s
      = ConfirmationRepository.get_pending_for_session db t u s := by
  unfold ConfirmationRepository.get_pending_for_session
  rw [chatPrelude_confirmations]

theorem foldl_pickLatest_mem :
    ∀ (l : List Confirmation) (acc : Option Confirmation) (c : Confirmation),
      l.foldl ConfirmationRepository.pickLatest acc = some c → acc = some c ∨ c ∈ l := by
  intro l
  induction l with
  | nil => exact fun acc c h => Or.inl h
  | cons x xs ih =>
      intro acc c h
      rcases ih (ConfirmationRepository.pickLatest acc x) c h with hacc | hmem
      · cases acc with
        | none =>
            simp only [ConfirmationRepository.pickLatest] at hacc
            have hxc : x = c := Option.some.inj hacc
            subst hxc
            exact Or.inr (List.mem_cons_self x xs)
        | some a =>
            simp only [ConfirmationRepository.pickLatest] at hacc
            by_cases hlt : a.created_at < x.created_at
            · rw [if_pos hlt] at hacc
              have hxc : x = c := Option.some.inj hacc
              subst hxc
              exact Or.inr (List.mem_cons_self x xs)
            · rw [if_neg hlt] at hacc
              exact Or.inl hacc
      · exact Or.inr (List.mem_cons_of_mem _ hmem)

theorem get_pending_for_session_mem (db : DB) (t u s : Nat) (c : Confirmation)
    (h : ConfirmationRepository.get_pending_for_session db t u s = some c) :
    c ∈ db.confirmations ∧ ConfirmationRepository.sessionPendingPred t u s c = true := by
  unfold ConfirmationRepository.get_pending_for_session at h
  rcases foldl_pickLatest_mem _ _ _ h with habs | hmem
  · exact absurd habs (by simp)
  · exact ⟨(List.mem_filter.mp hmem).1, (List.mem_filter.mp hmem).2⟩

/-- `find?` of a predicate that pins the key returns any member satisfying it,
in a list with pairwise-distinct keys. -/
theorem find?_of_mem_nodup_keyed {α : Type} (key : α → Nat) (p : α → Bool) {l : List α} {x : α}
    (hnd : (l.map key).Nodup) (hx : x ∈ l) (hpx : p x = true)
    (himp : ∀ y, p y = true → key y = key x) :
    l.find? p = some x := by
  induction l with
  | nil => simp at hx
  | cons y ys ih =>
      rw [List.map_cons, List.nodup_cons] at hnd
      by_cases hpy : p y = true
      · have hyx : y = x := by
          rcases List.mem_cons.mp hx with rfl | hmem
          · rfl
          · exfalso
            apply hnd.1
            rw [himp y hpy]
            exact List.mem_map_of_mem key hmem
        rw [List.find?_cons_of_pos _ hpy, hyx]
      · have hxmem : x ∈ ys := by
          rcases List.mem_cons.mp hx with rfl | hmem
          · exact absurd hpx hpy
          · exact hmem
        rw [List.find?_cons_of_neg _ hpy]
        exact ih hnd.2 hxmem

/-- A session-scoped pending row is exactly what `get_pending` finds by its id. -/
theorem get_pending_of_pred (db : DB) (t u s : Nat) (c : Confirmation) (hwf : WF db)
    (hmem : c ∈ db.confirmations)
    (hpred : ConfirmationRepository.sessionPendingPred t u s c = true) :
    ConfirmationRepository.get_pending db t u s c.id = some c := by
  unfold ConfirmationRepository.sessionPendingPred at hpred
  simp only [Bool.and_eq_true, beq_iff_eq] at hpred
  apply find?_of_mem_nodup_keyed (fun y => y.id) _ hwf.1 hmem
  · unfold ConfirmationRepository.pendingPred
    simp only [Bool.and_eq_true, beq_iff_eq]
    exact ⟨⟨⟨⟨by simp, hpred.1.1.1⟩, hpred.1.1.2⟩, hpred.1.2⟩, hpred.2⟩
  · intro y hy
    unfold ConfirmationRepository.pendingPred at hy
    simp only [Bool.and_eq_true, beq_iff_eq] at hy
    exact hy.1.1.1.1

/-- The resolved copy of a confirmation row, as written by `resolve`. -/
def resolvedRecord (c : Confirmation) (approved : Bool) (now : Nat) : Confirmation :=
  { c with status := if approved then CStatus.approved else CStatus.denied,
           resolved_at := some now }

/-- The store after a successful `resolve` of confirmation `c`. -/
def resolvedStore (db : DB) (c : Confirmation) (approved : Bool) : DB :=
  { db with
      confirmations := db.confirmations.map
        (fun x => if x.id == c.id then resolvedRecord c approved db.now else x),
      now := db.now + 1 }

/-- Explicit form of a successful `resolve` of a session-scoped pending row. -/
theorem resolve_found (db : DB) (t u s : Nat) (c : Confirmation) (approved : Bool)
    (hwf : WF db) (hmem : c ∈ db.confirmations)
    (hpred : ConfirmationRepository.sessionPendingPred t u s c = true) :
    ConfirmationRepository.resolve db t u s c.id approved =
      (some (resolvedRecord c approved db.now), resolvedStore db c approved) := by
  unfold ConfirmationRepository.resolve
  rw [get_pending_of_pred db t u s c hwf hmem hpred]
  rfl

/-- Reduction of the chat handler on the structured-denial path: a pending
confirmation exists, the message is a bare negative. -/
theorem chat_structured_deny (db : DB) (body : ChatRequestM) (c : Confirmation)
    (agent_result : AgentResult)
    (hwf : WF db)
    (hpend : ConfirmationRepository.get_pending_for_session db body.tenant_id body.user_id
      body.session_id = some c)
    (hyes : is_yes_no body.message = true)
    (hno : approved_from_message body.message = false) :
    chat db body agent_result =
      (ChatResponseM.message "Understood, I did not perform that action.",
       (MessageRepository.add (resolvedStore (chatPrelude db body) c false)
         body.tenant_id body.session_id "assistant"
         "Understood, I did not perform that action.").2,
       [Ev.sessionEnsured body.session_id, Ev.msgAdded "user" body.message,
        Ev.resolveApplied c.id false true,
        Ev.msgAdded "assistant" "Understood, I did not perform that action.",
        Ev.bgSummaryScheduled]) := by
  have hmem2 : c ∈ (chatPrelude db body).confirmations := by
    rw [chatPrelude_confirmations]
    exact (get_pending_for_session_mem db _ _ _ c hpend).1
  have hpred2 := (get_pending_for_session_mem db _ _ _ c hpend).2
  have hwf2 := WF_chatPrelude db body hwf
  have hres := resolve_found (chatPrelude db body) body.tenant_id body.user_id body.session_id
    c false hwf2 hmem2 hpred2
  have hp2 : ConfirmationRepository.get_pending_for_session (chatPrelude db body)
      body.tenant_id body.user_id body.session_id = some c := by
    rw [gpfs_chatPrelude]
    exact hpend
  unfold chat
  simp only [hp2, hyes, if_true]
  unfold chatStructuredResolution
  simp only [hno, Bool.false_and, Bool.false_eq_true, if_false, hres]
  unfold respond_after_confirmation
  simp only [Bool.false_eq_true, if_false]
  rfl

/-- Reduction of the chat handler on the structured-approval path for an
ingest_github confirmation with a truthy repo_url: the Job is created first,
then the ledger row is resolved, then the follow-up is persisted. -/
theorem chat_structured_approve_ingest (db : DB) (body : ChatRequestM) (c : Confirmation)
    (agent_result : AgentResult) (v : PyVal)
    (hwf : WF db)
    (hpend : ConfirmationRepository.get_pending_for_session db body.tenant_id body.user_id
      body.session_id = some c)
    (hyes : is_yes_no body.message = true)
    (happ : approved_from_message body.message = true)
    (htool : c.tool_name = "ingest_github")
    (hurl : pyGet c.payload "repo_url" = some v)
    (htr : v.truthy = true) :
    chat db body agent_result =
      (ChatResponseM.message
         ("Ingestion job started. Job ID: " ++ toString (chatPrelude db body).nextId),
       (MessageRepository.add
         (resolvedStore
           ((JobRepository.create (chatPrelude db body) body.tenant_id body.user_id
             "github_ingestion" [("repo_url", v)]).2) c true)
         body.tenant_id body.session_id "assistant"
         ("Ingestion job started. Job ID: " ++ toString (chatPrelude db body).nextId)).2,
       [Ev.sessionEnsured body.session_id, Ev.msgAdded "user" body.message,
        Ev.jobCreated (chatPrelude db body).nextId "github_ingestion" [("repo_url", v)],
        Ev.bgIngestScheduled (chatPrelude db body).nextId,
        Ev.resolveApplied c.id true true,
        Ev.msgAdded "assistant"
          ("Ingestion job started. Job ID: " ++ toString (chatPrelude db body).nextId),
        Ev.bgSummaryScheduled]) := by
  have hmem3 : c ∈ ((JobRepository.create (chatPrelude db body) body.tenant_id body.user_id
      "github_ingestion" [("repo_url", v)]).2).confirmations := by
    rw [jobCreate_confirmations, chatPrelude_confirmations]
    exact (get_pending_for_session_mem db _ _ _ c hpend).1
  have hpred2 := (get_pending_for_session_mem db _ _ _ c hpend).2
  have hwf3 := WF_jobCreate (chatPrelude db body) body.tenant_id body.user_id
    "github_ingestion" [("repo_url", v)] (WF_chatPrelude db body hwf)
  have hres := resolve_found
    ((JobRepository.create (chatPrelude db body) body.tenant_id body.user_id
      "github_ingestion" [("repo_url", v)]).2)
    body.tenant_id body.user_id body.session_id c true hwf3 hmem3 hpred2
  have hp2 : ConfirmationRepository.get_pending_for_session (chatPrelude db body)
      body.tenant_id body.user_id body.session_id = some c := by
    rw [gpfs_chatPrelude]
    exact hpend
  unfold chat
  simp only [hp2, hyes, if_true]
  unfold chatStructuredResolution
  simp only [happ, htool, beq_self_eq_true, Bool.true_and, if_true]
  unfold ingestApprovalStep
  simp only [hurl, htr, if_true, hres]
  unfold respond_after_confirmation
  simp only [eq_self_iff_true, if_true]
  rfl

/-- Reduction of the chat handler on the structured-approval path for an
ingest_github confirmation whose payload has no truthy repo_url: no Job is
created, the ledger row is still resolved to approved, and the generic
acknowledgment is returned. -/
theorem chat_structured_approve_ingest_nourl (db : DB) (body : ChatRequestM) (c : Confirmation)
    (agent_result : AgentResult)
    (hwf : WF db)
    (hpend : ConfirmationRepository.get_pending_for_session db body.tenant_id body.user_id
      body.session_id = some c)
    (hyes : is_yes_no body.message = true)
    (happ : approved_from_message body.message = true)
    (htool : c.tool_name = "ingest_github")
    (hurl : truthyOpt (pyGet c.payload "repo_url") = false) :
    chat db body agent_result =
      (ChatResponseM.message "Confirmation recorded.",
       (MessageRepository.add (resolvedStore (chatPrelude db body) c true)
         body.tenant_id body.session_id "assistant" "Confirmation recorded.").2,
       [Ev.sessionEnsured body.session_id, Ev.msgAdded "user" body.message,
        Ev.resolveApplied c.id true true,
        Ev.msgAdded "assistant" "Confirmation recorded.",
        Ev.bgSummaryScheduled]) := by
  have hmem2 : c ∈ (chatPrelude db body).confirmations := by
    rw [chatPrelude_confirmations]
    exact (get_pending_for_session_mem db _ _ _ c hpend).1
  have hpred2 := (get_pending_for_session_mem db _ _ _ c hpend).2
  have hwf2 := WF_chatPrelude db body hwf
  have hres := resolve_found (chatPrelude db body) body.tenant_id body.user_id body.session_id
    c true hwf2 hmem2 hpred2
  have hp2 : ConfirmationRepository.get_pending_for_session (chatPrelude db body)
      body.tenant_id body.user_id body.session_id = some c := by
    rw [gpfs_chatPrelude]
    exact hpend
  unfold chat
  simp only [hp2, hyes, if_true]
  unfold chatStructuredResolution
  simp only [happ, htool, beq_self_eq_true, Bool.true_and, if_true]
  unfold ingestApprovalStep
  cases hg : pyGet c.payload "repo_url" with
  | none =>
      simp only [hg, hres]
      unfold respond_after_confirmation
      simp only [eq_self_iff_true, if_true]
      rfl
  | some v =>
      have hvf : v.truthy = false := by
        rw [hg] at hurl
        exact hurl
      simp only [hg, hvf, Bool.false_eq_true, if_false, hres]
      unfold respond_after_confirmation
      simp only [eq_self_iff_true, if_true]
      rfl

/-- Reduction of the chat handler on the free-text fallback approval path: no
pending confirmation, bare affirmative, last assistant message matches the
GitHub crawl prompt with a nonempty captured url.  A Job is created with the
recovered url and no ledger row is touched. -/
theorem chat_fallback_yes (db : DB) (body : ChatRequestM) (agent_result : AgentResult)
    (u : String)
    (hpend : ConfirmationRepository.get_pending_for_session db body.tenant_id body.user_id
      body.session_id = none)
    (hyes : is_yes_no body.message = true)
    (happ : approved_from_message body.message = true)
    (hex : extract_repo_url_from_last_message
      (MessageRepository.get_last_assistant_content (chatPrelude db body) body.tenant_id
        body.session_id) = some u)
    (hne : (u == "") = false) :
    chat db body agent_result =
      (ChatResponseM.message
         ("Ingestion job started. Job ID: " ++ toString (chatPrelude db body).nextId),
       (MessageRepository.add
         ((JobRepository.create (chatPrelude db body) body.tenant_id body.user_id
           "github_ingestion" [("repo_url", PyVal.str u)]).2)
         body.tenant_id body.session_id "assistant"
         ("Ingestion job started. Job ID: " ++ toString (chatPrelude db body).nextId)).2,
       [Ev.sessionEnsured body.session_id, Ev.msgAdded "user" body.message,
        Ev.jobCreated (chatPrelude db body).nextId "github_ingestion"
          [("repo_url", PyVal.str u)],
        Ev.bgIngestScheduled (chatPrelude db body).nextId,
        Ev.msgAdded "assistant"
          ("Ingestion job started. Job ID: " ++ toString (chatPrelude db body).nextId),
        Ev.bgSummaryScheduled]) := by
  have hp2 : ConfirmationRepository.get_pending_for_session (chatPrelude db body)
      body.tenant_id body.user_id body.session_id = none := by
    rw [gpfs_chatPrelude]
    exact hpend
  unfold chat
  simp only [hp2, hyes, if_true, hex, hne, Bool.not_false]
  unfold chatFallbackResolution
  simp only [happ, if_true]
  unfold respond_after_confirmation
  simp only [eq_self_iff_true, if_true]
  rfl

/-- Reduction of the chat handler to the reasoning-engine path when a pending
confirmation exists but the message is not a bare yes/no. -/
theorem chat_agent_of_pending_not_yesno (db : DB) (body : ChatRequestM) (c : Confirmation)
    (agent_result : AgentResult)
    (hpend : ConfirmationRepository.get_pending_for_session db body.tenant_id body.user_id
      body.session_id = some c)
    (hyes : is_yes_no body.message = false) :
    chat db body agent_result =
      ((chatAgentTurn (chatPrelude db body) body agent_result).1,
       (chatAgentTurn (chatPrelude db body) body agent_result).2.1,
       [Ev.sessionEnsured body.session_id, Ev.msgAdded "user" body.message] ++
         (chatAgentTurn (chatPrelude db body) body agent_result).2.2) := by
  have hp2 : ConfirmationRepository.get_pending_for_session (chatPrelude db body)
      body.tenant_id body.user_id body.session_id = some c := by
    rw [gpfs_chatPrelude]
    exact hpend
  unfold chat
  simp only [hp2, hyes, Bool.false_eq_true, if_false]

/-- Reduction of the chat handler to the reasoning-engine path when there is no
pending confirmation and the message is not a bare yes/no. -/
theorem chat_agent_of_no_pending_not_yesno (db : DB) (body : ChatRequestM)
    (agent_result : AgentResult)
    (hpend : ConfirmationRepository.get_pending_for_session db body.tenant_id body.user_id
      body.session_id = none)
    (hyes : is_yes_no body.message = false) :
    chat db body agent_result =
      ((chatAgentTurn (chatPrelude db body) body agent_result).1,
       (chatAgentTurn (chatPrelude db body) body agent_result).2.1,
       [Ev.sessionEnsured body.session_id, Ev.msgAdded "user" body.message] ++
         (chatAgentTurn (chatPrelude db body) body agent_result).2.2) := by
  have hp2 : ConfirmationRepository.get_pending_for_session (chatPrelude db body)
      body.tenant_id body.user_id body.session_id = none := by
    rw [gpfs_chatPrelude]
    exact hpend
  unfold chat
  simp only [hp2, hyes, Bool.false_eq_true, if_false]

/-- Reduction of the chat handler to the reasoning-engine path when there is no
pending confirmation, the message is a bare yes/no, but the last assistant
message does not match the GitHub crawl prompt: no synthetic resolution
happens and the turn goes to the reasoning engine. -/
theorem chat_agent_of_yesno_no_pattern (db : DB) (body : ChatRequestM)
    (agent_result : AgentResult)
    (hpend : ConfirmationRepository.get_pending_for_session db body.tenant_id body.user_id
      body.session_id = none)
    (hyes : is_yes_no body.message = true)
    (hex : extract_repo_url_from_last_message
      (MessageRepository.get_last_assistant_content (chatPrelude db body) body.tenant_id
        body.session_id) = none) :
    chat db body agent_result =
      ((chatAgentTurn (chatPrelude db body) body agent_result).1,
       (chatAgentTurn (chatPrelude db body) body agent_result).2.1,
       [Ev.sessionEnsured body.session_id, Ev.msgAdded "user" body.message] ++
         (chatAgentTurn (chatPrelude db body) body agent_result).2.2) := by
  have hp2 : ConfirmationRepository.get_pending_for_session (chatPrelude db body)
      body.tenant_id body.user_id body.session_id = none := by
    rw [gpfs_chatPrelude]
    exact hpend
  unfold chat
  simp only [hp2, hyes, if_true, hex]

/-- A row found by `get_pending` satisfies the session-scoped pending filter
and carries the queried id. -/
theorem get_pending_inv (db : DB) (t u s cid : Nat) (c : Confirmation)
    (hfound : ConfirmationRepository.get_pending db t u s cid = some c) :
    c ∈ db.confirmations ∧ c.id = cid ∧
    ConfirmationRepository.sessionPendingPred t u s c = true := by
  have hmem := List.mem_of_find?_eq_some hfound
  have hpred := List.find?_some hfound
  simp only [ConfirmationRepository.pendingPred, Bool.and_eq_true, beq_iff_eq] at hpred
  refine ⟨hmem, hpred.1.1.1.1, ?_⟩
  unfold ConfirmationRepository.sessionPendingPred
  simp only [Bool.and_eq_true, beq_iff_eq]
  exact ⟨⟨⟨hpred.1.1.1.2, hpred.1.1.2⟩, hpred.1.2⟩, hpred.2⟩

/-- Reduction of the confirm endpoint: approval of a found ingest_github
confirmation with truthy repo_url creates the Job, then resolves, then
persists the follow-up. -/
theorem confirm_approve_ingest (db : DB) (body : ConfirmRequestM) (c : Confirmation) (v : PyVal)
    (hwf : WF db)
    (hfound : ConfirmationRepository.get_pending db body.tenant_id body.user_id body.session_id
      body.confirmation_id = some c)
    (happ : body.approved = true)
    (htool : c.tool_name = "ingest_github")
    (hurl : pyGet c.payload "repo_url" = some v)
    (htr : v.truthy = true) :
    confirm db body = Except.ok
      (⟨true, "Ingestion job started. Job ID: " ++ toString db.nextId,
        some "ingest_started", some db.nextId⟩,
       (MessageRepository.add
         (resolvedStore
           ((JobRepository.create db body.tenant_id body.user_id "github_ingestion"
             [("repo_url", v)]).2) c true)
         body.tenant_id body.session_id "assistant"
         ("Ingestion job started. Job ID: " ++ toString db.nextId)).2,
       [Ev.jobCreated db.nextId "github_ingestion" [("repo_url", v)],
        Ev.bgIngestScheduled db.nextId,
        Ev.resolveApplied c.id true true,
        Ev.msgAdded "assistant"
          ("Ingestion job started. Job ID: " ++ toString db.nextId)]) := by
  obtain ⟨hmem, hid, hsp⟩ := get_pending_inv _ _ _ _ _ _ hfound
  have hmem3 : c ∈ ((JobRepository.create db body.tenant_id body.user_id
      "github_ingestion" [("repo_url", v)]).2).confirmations := by
    rw [jobCreate_confirmations]
    exact hmem
  have hwf3 := WF_jobCreate db body.tenant_id body.user_id "github_ingestion"
    [("repo_url", v)] hwf
  have hres := resolve_found
    ((JobRepository.create db body.tenant_id body.user_id "github_ingestion"
      [("repo_url", v)]).2)
    body.tenant_id body.user_id body.session_id c true hwf3 hmem3 hsp
  unfold confirm
  rw [← hid] at hfound
  rw [show body.confirmation_id = c.id from hid.symm]
  simp only [hfound, happ, htool, beq_self_eq_true, Bool.true_and, if_true]
  unfold ingestApprovalStep
  simp only [hurl, htr, if_true, hres]
  unfold respond_after_confirmation
  simp only [eq_self_iff_true, if_true]
  rfl

/-- Reduction of the confirm endpoint: denial of a found confirmation touches
nothing but the ledger row and the message log, and resolves first. -/
theorem confirm_deny (db : DB) (body : ConfirmRequestM) (c : Confirmation)
    (hwf : WF db)
    (hfound : ConfirmationRepository.get_pending db body.tenant_id body.user_id body.session_id
      body.confirmation_id = some c)
    (hden : body.approved = false) :
    confirm db body = Except.ok
      (⟨true, "Confirmation recorded.", none, none⟩,
       (MessageRepository.add (resolvedStore db c false)
         body.tenant_id body.session_id "assistant"
         "Understood, I did not perform that action.").2,
       [Ev.resolveApplied c.id false true,
        Ev.msgAdded "assistant" "Understood, I did not perform that action."]) := by
  obtain ⟨hmem, hid, hsp⟩ := get_pending_inv _ _ _ _ _ _ hfound
  have hres := resolve_found db body.tenant_id body.user_id body.session_id c false hwf hmem hsp
  unfold confirm
  rw [← hid] at hfound
  rw [show body.confirmation_id = c.id from hid.symm]
  simp only [hfound, hden, Bool.false_and, Bool.false_eq_true, if_false, hres]
  unfold respond_after_confirmation
  simp only [Bool.false_eq_true, if_false]
  rfl

/-- Reduction of the confirm endpoint: approval of a found ingest_github
confirmation without a truthy repo_url creates no Job, still resolves the row
to approved, and answers with the generic acknowledgment. -/
theorem confirm_approve_ingest_nourl (db : DB) (body : ConfirmRequestM) (c : Confirmation)
    (hwf : WF db)
    (hfound : ConfirmationRepository.get_pending db body.tenant_id body.user_id body.session_id
      body.confirmation_id = some c)
    (happ : body.approved = true)
    (htool : c.tool_name = "ingest_github")
    (hurl : truthyOpt (pyGet c.payload "repo_url") = false) :
    confirm db body = Except.ok
      (⟨true, "Confirmation recorded.", none, none⟩,
       (MessageRepository.add (resolvedStore db c true)
         body.tenant_id body.session_id "assistant" "Confirmation recorded.").2,
       [Ev.resolveApplied c.id true true,
        Ev.msgAdded "assistant" "Confirmation recorded."]) := by
  obtain ⟨hmem, hid, hsp⟩ := get_pending_inv _ _ _ _ _ _ hfound
  have hres := resolve_found db body.tenant_id body.user_id body.session_id c true hwf hmem hsp
  have hneq : (("ingest_github" : String) == "save_candidate") = false := by decide
  unfold confirm
  rw [← hid] at hfound
  rw [show body.confirmation_id = c.id from hid.symm]
  simp only [hfound, happ, htool, beq_self_eq_true, Bool.true_and, if_true, hneq,
    Bool.and_false]
  unfold ingestApprovalStep
  cases hg : pyGet c.payload "repo_url" with
  | none =>
      simp only [hg, hres]
      unfold respond_after_confirmation
      simp only [eq_self_iff_true, if_true]
      rfl
  | some v =>
      have hvf : v.truthy = false := by
        rw [hg] at hurl
        exact hurl
      simp only [hg, hvf, Bool.false_eq_true, if_false, hres]
      unfold respond_after_confirmation
      simp only [eq_self_iff_true, if_true]
      rfl

/-! ### Claim C7 -/

theorem add_frames (db : DB) (t s : Nat) (role content : String) :
    ((MessageRepository.add db t s role content).2).jobs = db.jobs ∧
    ((MessageRepository.add db t s role content).2).candidates = db.candidates ∧
    ((MessageRepository.add db t s role content).2).repos = db.repos ∧
    ((MessageRepository.add db t s role content).2).confirmations = db.confirmations := by
  exact ⟨rfl, rfl, rfl, rfl⟩

theorem resolvedStore_frames (db : DB) (c : Confirmation) (approved : Bool) :
    (resolvedStore db c approved).jobs = db.jobs ∧
    (resolvedStore db c approved).candidates = db.candidates ∧
    (resolvedStore db c approved).repos = db.repos := by
  exact ⟨rfl, rfl, rfl⟩

/-- The resolved confirmation row is what a by-id lookup finds afterwards. -/
theorem confById_resolvedStore (db : DB) (c : Confirmation) (approved : Bool)
    (hwf : WF db) (hmem : c ∈ db.confirmations) :
    confById (resolvedStore db c approved) c.id
      = some (resolvedRecord c approved db.now) := by
  unfold confById resolvedStore
  have hfind : db.confirmations.find? (fun y => y.id == c.id) = some c :=
    find?_key_of_mem_nodup (fun y => y.id) hwf.1 hmem rfl
  exact find?_key_map_of_key_preserving (fun y : Confirmation => y.id)
    (fun x => if x.id == c.id then resolvedRecord c approved db.now else x)
    (resolvedRecord c approved db.now) hwf.1 hfind
    (by
      intro y
      by_cases hy : (y.id == c.id) = true
      · simp only [hy, if_true]
        show c.id = y.id
        have := of_decide_eq_true (by simpa using hy)
        exact (by simpa using hy : y.id = c.id).symm
      · simp [hy])
    (by simp)

/-- Claim C7: with a pending ingest confirmation, a bare "no" creates no Job,
resolves the confirmation to denied with resolved_at set, replies with the
fixed cancellation acknowledgment, performs no consequent action, and mutates
no workspace entity (candidates and repositories are untouched). -/
theorem denial_no_action_frame (db : DB) (body : ChatRequestM) (c : Confirmation)
    (agent_result : AgentResult)
    (hwf : WF db)
    (hpend : ConfirmationRepository.get_pending_for_session db body.tenant_id body.user_id
      body.session_id = some c)
    (htool : c.tool_name = "ingest_github")
    (hmsg : body.message = "no") :
    (chat db body agent_result).1
      = ChatResponseM.message "Understood, I did not perform that action." ∧
    (chat db body agent_result).2.1.jobs = db.jobs ∧
    (chat db body agent_result).2.1.candidates = db.candidates ∧
    (chat db body agent_result).2.1.repos = db.repos ∧
    (∀ e ∈ (chat db body agent_result).2.2, e.isConsequentAction = false) ∧
    (∃ c2, confById (chat db body agent_result).2.1 c.id = some c2 ∧
      c2.status = CStatus.denied ∧ c2.resolved_at.isSome = true ∧
      c2.tool_name = c.tool_name ∧ c2.payload = c.payload) := by
  have hyes : is_yes_no body.message = true := by rw [hmsg]; decide
  have hno : approved_from_message body.message = false := by rw [hmsg]; decide
  have hred := chat_structured_deny db body c agent_result hwf hpend hyes hno
  rw [hred]
  have hmem2 : c ∈ (chatPrelude db body).confirmations := by
    rw [chatPrelude_confirmations]
    exact (get_pending_for_session_mem db _ _ _ c hpend).1
  have hwf2 := WF_chatPrelude db body hwf
  refine ⟨rfl, ?_, ?_, ?_, ?_, ?_⟩
  · rw [(add_frames _ _ _ _ _).1, (resolvedStore_frames _ _ _).1, chatPrelude_jobs]
  · rw [(add_frames _ _ _ _ _).2.1, (resolvedStore_frames _ _ _).2.1, chatPrelude_candidates]
  · rw [(add_frames _ _ _ _ _).2.2.1, (resolvedStore_frames _ _ _).2.2, chatPrelude_repos]
  · intro e he
    simp only [List.mem_cons, List.not_mem_nil, or_false] at he
    rcases he with rfl | rfl | rfl | rfl | rfl <;> rfl
  · refine ⟨resolvedRecord c false (chatPrelude db body).now, ?_, rfl, rfl, rfl, rfl⟩
    show confById _ c.id = _
    have hcf : confById ((MessageRepository.add (resolvedStore (chatPrelude db body) c false)
        body.tenant_id body.session_id "assistant"
        "Understood, I did not perform that action.").2) c.id
        = confById (resolvedStore (chatPrelude db body) c false) c.id := rfl
    rw [hcf]
    exact confById_resolvedStore (chatPrelude db body) c false hwf2 hmem2

/-- Witness for C7 on the concrete pending-ingest store. -/
theorem denial_no_action_frame_witness :
    (chat dbPendingIngest ⟨1, 2, 3, "no"⟩ (AgentResult.message "x")).1
      = ChatResponseM.message "Understood, I did not perform that action." ∧
    (chat dbPendingIngest ⟨1, 2, 3, "no"⟩ (AgentResult.message "x")).2.1.jobs
      = dbPendingIngest.jobs ∧
    (chat dbPendingIngest ⟨1, 2, 3, "no"⟩ (AgentResult.message "x")).2.1.candidates
      = dbPendingIngest.candidates ∧
    (chat dbPendingIngest ⟨1, 2, 3, "no"⟩ (AgentResult.message "x")).2.1.repos
      = dbPendingIngest.repos ∧
    (∀ e ∈ (chat dbPendingIngest ⟨1, 2, 3, "no"⟩ (AgentResult.message "x")).2.2,
      e.isConsequentAction = false) ∧
    (∃ c2, confById (chat dbPendingIngest ⟨1, 2, 3, "no"⟩ (AgentResult.message "x")).2.1 0
        = some c2 ∧
      c2.status = CStatus.denied ∧ c2.resolved_at.isSome = true ∧
      c2.tool_name = "ingest_github" ∧
      c2.payload = [("repo_url", PyVal.str "github.com/acme/widget")]) :=
  denial_no_action_frame dbPendingIngest ⟨1, 2, 3, "no"⟩
    ⟨0, 1, 2, 3, "ingest_github", [("repo_url", PyVal.str "github.com/acme/widget")],
      CStatus.pending, 0, none⟩
    (AgentResult.message "x") (by decide) (by decide) (by decide) rfl

/-! ### Claim C9 -/

/-- Claim C9: if a pending ingest_github confirmation payload lacks a truthy
repo_url (missing key or empty string), an affirmative reply creates no Job,
still resolves the confirmation to approved with resolved_at set, and the user
receives the generic acknowledgment rather than an error — on both the chat
free-text path and the confirm endpoint. -/
theorem missing_repo_url_approved_no_job :
    (∀ (db : DB) (body : ChatRequestM) (c : Confirmation) (agent_result : AgentResult),
      WF db →
      ConfirmationRepository.get_pending_for_session db body.tenant_id body.user_id
        body.session_id = some c →
      c.tool_name = "ingest_github" →
      truthyOpt (pyGet c.payload "repo_url") = false →
      body.message = "yes" →
      (chat db body agent_result).1 = ChatResponseM.message "Confirmation recorded." ∧
      (chat db body agent_result).2.1.jobs = db.jobs ∧
      (∀ e ∈ (chat db body agent_result).2.2, e.isConsequentAction = false) ∧
      (∃ c2, confById (chat db body agent_result).2.1 c.id = some c2 ∧
        c2.status = CStatus.approved ∧ c2.resolved_at.isSome = true)) ∧
    (∀ (db : DB) (body : ConfirmRequestM) (c : Confirmation),
      WF db →
      ConfirmationRepository.get_pending db body.tenant_id body.user_id body.session_id
        body.confirmation_id = some c →
      c.tool_name = "ingest_github" →
      truthyOpt (pyGet c.payload "repo_url") = false →
      body.approved = true →
      ∃ db2 evs,
        confirm db body
          = Except.ok (⟨true, "Confirmation recorded.", none, none⟩, db2, evs) ∧
        db2.jobs = db.jobs ∧ (∀ e ∈ evs, e.isConsequentAction = false) ∧
        ∃ c2, confById db2 c.id = some c2 ∧ c2.status = CStatus.approved ∧
          c2.resolved_at.isSome = true) := by
  constructor
  · intro db body c agent_result hwf hpend htool hurl hmsg
    have hyes : is_yes_no body.message = true := by rw [hmsg]; decide
    have happ : approved_from_message body.message = true := by rw [hmsg]; decide
    have hred := chat_structured_approve_ingest_nourl db body c agent_result hwf hpend hyes
      happ htool hurl
    rw [hred]
    have hmem2 : c ∈ (chatPrelude db body).confirmations := by
      rw [chatPrelude_confirmations]
      exact (get_pending_for_session_mem db _ _ _ c hpend).1
    have hwf2 := WF_chatPrelude db body hwf
    refine ⟨rfl, ?_, ?_, ?_⟩
    · rw [(add_frames _ _ _ _ _).1, (resolvedStore_frames _ _ _).1, chatPrelude_jobs]
    · intro e he
      simp only [List.mem_cons, List.not_mem_nil, or_false] at he
      rcases he with rfl | rfl | rfl | rfl | rfl <;> rfl
    · refine ⟨resolvedRecord c true (chatPrelude db body).now, ?_, rfl, rfl⟩
      show confById _ c.id = _
      have hcf : confById ((MessageRepository.add (resolvedStore (chatPrelude db body) c true)
          body.tenant_id body.session_id "assistant" "Confirmation recorded.").2) c.id
          = confById (resolvedStore (chatPrelude db body) c true) c.id := rfl
      rw [hcf]
      exact confById_resolvedStore (chatPrelude db body) c true hwf2 hmem2
  · intro db body c hwf hfound htool hurl happ
    have hmem := (get_pending_inv _ _ _ _ _ _ hfound).1
    have hred := confirm_approve_ingest_nourl db body c hwf hfound happ htool hurl
    refine ⟨_, _, hred, ?_, ?_, ?_⟩
    · rw [(add_frames _ _ _ _ _).1, (resolvedStore_frames _ _ _).1]
    · intro e he
      simp only [List.mem_cons, List.not_mem_nil, or_false] at he
      rcases he with rfl | rfl <;> rfl
    · refine ⟨resolvedRecord c true db.now, ?_, rfl, rfl⟩
      show confById _ c.id = _
      have hcf : confById ((MessageRepository.add (resolvedStore db c true)
          body.tenant_id body.session_id "assistant" "Confirmation recorded.").2) c.id
          = confById (resolvedStore db c true) c.id := rfl
      rw [hcf]
      exact confById_resolvedStore db c true hwf hmem

/-- Store with a pending ingest_github confirmation whose payload has no
repo_url key at all. -/
def dbPendingIngestNoUrl : DB :=
  (ConfirmationRepository.create_pending dbEmpty 1 2 3 "ingest_github" []).2

/-- Witness for C9 on the concrete store whose ingest confirmation lacks a
repo_url: the chat "yes" path creates no job and approves the row. -/
theorem missing_repo_url_approved_no_job_witness :
    (chat dbPendingIngestNoUrl ⟨1, 2, 3, "yes"⟩ (AgentResult.message "x")).1
      = ChatResponseM.message "Confirmation recorded." ∧
    (chat dbPendingIngestNoUrl ⟨1, 2, 3, "yes"⟩ (AgentResult.message "x")).2.1.jobs
      = dbPendingIngestNoUrl.jobs ∧
    (∀ e ∈ (chat dbPendingIngestNoUrl ⟨1, 2, 3, "yes"⟩ (AgentResult.message "x")).2.2,
      e.isConsequentAction = false) ∧
    (∃ c2, confById (chat dbPendingIngestNoUrl ⟨1, 2, 3, "yes"⟩
        (AgentResult.message "x")).2.1 0 = some c2 ∧
      c2.status = CStatus.approved ∧ c2.resolved_at.isSome = true) :=
  missing_repo_url_approved_no_job.1 dbPendingIngestNoUrl ⟨1, 2, 3, "yes"⟩
    ⟨0, 1, 2, 3, "ingest_github", [], CStatus.pending, 0, none⟩
    (AgentResult.message "x") (by decide) (by decide) (by decide) (by decide) rfl

/-! ### Claim C2 -/

/-- Index of the first job-creation step of a trace. -/
def idxOfJobCreated (evs : List Ev) : Option Nat :=
  evs.findIdx? (fun e => match e with | Ev.jobCreated _ _ _ => true | _ => false)

/-- Index of the first ledger-resolution step of a trace. -/
def idxOfResolve (evs : List Ev) : Option Nat :=
  evs.findIdx? (fun e => e.isResolve)

/-- Claim C2: on both resolution paths of a pending ingest confirmation with a
truthy repo_url, approval creates the Job (capturing its id) strictly before
the ledger resolve is applied; a denial performs no consequent action at all,
and on the confirm endpoint the resolve is the very first step. -/
theorem job_created_before_resolve :
    (∀ (db : DB) (body : ChatRequestM) (c : Confirmation) (agent_result : AgentResult)
      (v : PyVal), WF db →
      ConfirmationRepository.get_pending_for_session db body.tenant_id body.user_id
        body.session_id = some c →
      is_yes_no body.message = true → approved_from_message body.message = true →
      c.tool_name = "ingest_github" → pyGet c.payload "repo_url" = some v →
      v.truthy = true →
      ∃ i j, idxOfJobCreated (chat db body agent_result).2.2 = some i ∧
        idxOfResolve (chat db body agent_result).2.2 = some j ∧ i < j) ∧
    (∀ (db : DB) (body : ChatRequestM) (c : Confirmation) (agent_result : AgentResult),
      WF db →
      ConfirmationRepository.get_pending_for_session db body.tenant_id body.user_id
        body.session_id = some c →
      is_yes_no body.message = true → approved_from_message body.message = false →
      (∀ e ∈ (chat db body agent_result).2.2, e.isConsequentAction = false) ∧
      ∃ j, idxOfResolve (chat db body agent_result).2.2 = some j) ∧
    (∀ (db : DB) (body : ConfirmRequestM) (c : Confirmation) (v : PyVal), WF db →
      ConfirmationRepository.get_pending db body.tenant_id body.user_id body.session_id
        body.confirmation_id = some c →
      body.approved = true → c.tool_name = "ingest_github" →
      pyGet c.payload "repo_url" = some v → v.truthy = true →
      ∃ db2 evs r, confirm db body = Except.ok (r, db2, evs) ∧
        ∃ i j, idxOfJobCreated evs = some i ∧ idxOfResolve evs = some j ∧ i < j) ∧
    (∀ (db : DB) (body : ConfirmRequestM) (c : Confirmation), WF db →
      ConfirmationRepository.get_pending db body.tenant_id body.user_id body.session_id
        body.confirmation_id = some c →
      body.approved = false →
      ∃ db2 evs r, confirm db body = Except.ok (r, db2, evs) ∧
        (∀ e ∈ evs, e.isConsequentAction = false) ∧
        idxOfResolve evs = some 0) := by
  refine ⟨?_, ?_, ?_, ?_⟩
  · intro db body c agent_result v hwf hpend hyes happ htool hurl htr
    rw [chat_structured_approve_ingest db body c agent_result v hwf hpend hyes happ htool
      hurl htr]
    exact ⟨2, 4, rfl, rfl, by omega⟩
  · intro db body c agent_result hwf hpend hyes hno
    rw [chat_structured_deny db body c agent_result hwf hpend hyes hno]
    constructor
    · intro e he
      simp only [List.mem_cons, List.not_mem_nil, or_false] at he
      rcases he with rfl | rfl | rfl | rfl | rfl <;> rfl
    · exact ⟨2, rfl⟩
  · intro db body c v hwf hfound happ htool hurl htr
    rw [confirm_approve_ingest db body c v hwf hfound happ htool hurl htr]
    exact ⟨_, _, _, rfl, 0, 2, rfl, rfl, by omega⟩
  · intro db body c hwf hfound hden
    rw [confirm_deny db body c hwf hfound hden]
    refine ⟨_, _, _, rfl, ?_, rfl⟩
    intro e he
    simp only [List.mem_cons, List.not_mem_nil, or_false] at he
    rcases he with rfl | rfl <;> rfl

/-- Witness for C2 on the concrete pending-ingest store, exercising all four
paths (chat yes, chat no, confirm approve, confirm deny). -/
theorem job_created_before_resolve_witness :
    (∃ i j, idxOfJobCreated (chat dbPendingIngest ⟨1, 2, 3, "yes"⟩
        (AgentResult.message "x")).2.2 = some i ∧
      idxOfResolve (chat dbPendingIngest ⟨1, 2, 3, "yes"⟩
        (AgentResult.message "x")).2.2 = some j ∧ i < j) ∧
    (∀ e ∈ (chat dbPendingIngest ⟨1, 2, 3, "no"⟩ (AgentResult.message "x")).2.2,
      e.isConsequentAction = false) ∧
    (∃ db2 evs r, confirm dbPendingIngest ⟨0, true, 1, 2, 3⟩ = Except.ok (r, db2, evs) ∧
      ∃ i j, idxOfJobCreated evs = some i ∧ idxOfResolve evs = some j ∧ i < j) ∧
    (∃ db2 evs r, confirm dbPendingIngest ⟨0, false, 1, 2, 3⟩ = Except.ok (r, db2, evs) ∧
      (∀ e ∈ evs, e.isConsequentAction = false) ∧ idxOfResolve evs = some 0) :=
  ⟨job_created_before_resolve.1 dbPendingIngest ⟨1, 2, 3, "yes"⟩
      ⟨0, 1, 2, 3, "ingest_github", [("repo_url", PyVal.str "github.com/acme/widget")],
        CStatus.pending, 0, none⟩
      (AgentResult.message "x") (PyVal.str "github.com/acme/widget")
      (by decide) (by decide) (by decide) (by decide) (by decide) (by decide) (by decide),
   (job_created_before_resolve.2.1 dbPendingIngest ⟨1, 2, 3, "no"⟩
      ⟨0, 1, 2, 3, "ingest_github", [("repo_url", PyVal.str "github.com/acme/widget")],
        CStatus.pending, 0, none⟩
      (AgentResult.message "x") (by decide) (by decide) (by decide) (by decide)).1,
   job_created_before_resolve.2.2.1 dbPendingIngest ⟨0, true, 1, 2, 3⟩
      ⟨0, 1, 2, 3, "ingest_github", [("repo_url", PyVal.str "github.com/acme/widget")],
        CStatus.pending, 0, none⟩
      (PyVal.str "github.com/acme/widget")
      (by decide) (by decide) (by decide) (by decide) (by decide) (by decide),
   job_created_before_resolve.2.2.2 dbPendingIngest ⟨0, false, 1, 2, 3⟩
      ⟨0, 1, 2, 3, "ingest_github", [("repo_url", PyVal.str "github.com/acme/widget")],
        CStatus.pending, 0, none⟩
      (by decide) (by decide) (by decide)⟩

/-! ### Claim C3 -/

/-- The jobs a trace creates, as (job_type, payload) in order. -/
def jobsCreated (evs : List Ev) : List (String × Payload) :=
  evs.filterMap (fun e => match e with
    | Ev.jobCreated _ ty pl => some (ty, pl)
    | _ => none)

/-- A session whose confirmations all fail the pending filter has no pending
confirmation. -/
theorem gpfs_none_of_all_false (db : DB) (t u s : Nat)
    (h : ∀ x ∈ db.confirmations,
      ConfirmationRepository.sessionPendingPred t u s x = false) :
    ConfirmationRepository.get_pending_for_session db t u s = none := by
  unfold ConfirmationRepository.get_pending_for_session
  have hnil : db.confirmations.filter
      (ConfirmationRepository.sessionPendingPred t u s) = [] := by
    rw [List.filter_eq_nil]
    intro a ha
    rw [h a ha]
    exact Bool.false_ne_true
  rw [hnil]
  rfl

/-- `get_pending_for_session` depends only on the confirmations list. -/
theorem gpfs_congr (db1 db2 : DB) (h : db1.confirmations = db2.confirmations) (t u s : Nat) :
    ConfirmationRepository.get_pending_for_session db1 t u s
      = ConfirmationRepository.get_pending_for_session db2 t u s := by
  unfold ConfirmationRepository.get_pending_for_session
  rw [h]

/-- After resolving the unique session-pending confirmation, the session has
no pending confirmation left. -/
theorem gpfs_resolvedStore_none (db : DB) (t u s : Nat) (c : Confirmation) (approved : Bool)
    (huniq : ∀ x ∈ db.confirmations,
      ConfirmationRepository.sessionPendingPred t u s x = true → x = c) :
    ConfirmationRepository.get_pending_for_session (resolvedStore db c approved) t u s
      = none := by
  apply gpfs_none_of_all_false
  intro x hx
  rcases List.mem_map.mp hx with ⟨y, hy, rfl⟩
  by_cases hid : (y.id == c.id) = true
  · simp only [hid, if_true]
    unfold ConfirmationRepository.sessionPendingPred resolvedRecord
    cases approved <;> simp
  · simp only [hid]
    rw [if_neg (by simpa using hid)]
    cases hb : ConfirmationRepository.sessionPendingPred t u s y with
    | false => rfl
    | true =>
        exfalso
        apply hid
        rw [huniq y hy hb]
        simp

/-- Claim C3: replying "yes" to a structured pending ingest confirmation for
url X and replying "yes" under the text-inferred fallback prompt for X produce
equivalent terminal states: the same Job type and payload {repo_url: X} is
created in both, and afterwards neither session has a pending confirmation
(the structured ledger row being resolved to approved). -/
theorem structured_and_fallback_equivalent
    (dbS dbF : DB) (bodyS bodyF : ChatRequestM) (c : Confirmation) (X : String)
    (aS aF : AgentResult)
    (hwfS : WF dbS)
    (hpendS : ConfirmationRepository.get_pending_for_session dbS bodyS.tenant_id
      bodyS.user_id bodyS.session_id = some c)
    (htool : c.tool_name = "ingest_github")
    (hurl : pyGet c.payload "repo_url" = some (PyVal.str X))
    (hX : (X == "") = false)
    (huniq : ∀ x ∈ dbS.confirmations,
      ConfirmationRepository.sessionPendingPred bodyS.tenant_id bodyS.user_id
        bodyS.session_id x = true → x = c)
    (hmsgS : bodyS.message = "yes")
    (hpendF : ConfirmationRepository.get_pending_for_session dbF bodyF.tenant_id
      bodyF.user_id bodyF.session_id = none)
    (hmsgF : bodyF.message = "yes")
    (hex : extract_repo_url_from_last_message
      (MessageRepository.get_last_assistant_content (chatPrelude dbF bodyF) bodyF.tenant_id
        bodyF.session_id) = some X) :
    jobsCreated (chat dbS bodyS aS).2.2
      = [("github_ingestion", [("repo_url", PyVal.str X)])] ∧
    jobsCreated (chat dbF bodyF aF).2.2
      = [("github_ingestion", [("repo_url", PyVal.str X)])] ∧
    jobsCreated (chat dbS bodyS aS).2.2 = jobsCreated (chat dbF bodyF aF).2.2 ∧
    ConfirmationRepository.get_pending_for_session (chat dbS bodyS aS).2.1 bodyS.tenant_id
      bodyS.user_id bodyS.session_id = none ∧
    ConfirmationRepository.get_pending_for_session (chat dbF bodyF aF).2.1 bodyF.tenant_id
      bodyF.user_id bodyF.session_id = none ∧
    (∃ c2, confById (chat dbS bodyS aS).2.1 c.id = some c2 ∧
      c2.status = CStatus.approved) := by
  have hyesS : is_yes_no bodyS.message = true := by rw [hmsgS]; decide
  have happS : approved_from_message bodyS.message = true := by rw [hmsgS]; decide
  have hyesF : is_yes_no bodyF.message = true := by rw [hmsgF]; decide
  have happF : approved_from_message bodyF.message = true := by rw [hmsgF]; decide
  have htr : (PyVal.str X).truthy = true := by simp [PyVal.truthy, hX]
  have hredS := chat_structured_approve_ingest dbS bodyS c aS (PyVal.str X) hwfS hpendS
    hyesS happS htool hurl htr
  have hredF := chat_fallback_yes dbF bodyF aF X hpendF hyesF happF hex hX
  rw [hredS, hredF]
  have hmem2 : c ∈ ((JobRepository.create (chatPrelude dbS bodyS) bodyS.tenant_id
      bodyS.user_id "github_ingestion" [("repo_url", PyVal.str X)]).2).confirmations := by
    rw [jobCreate_confirmations, chatPrelude_confirmations]
    exact (get_pending_for_session_mem dbS _ _ _ c hpendS).1
  have hwf3 := WF_jobCreate (chatPrelude dbS bodyS) bodyS.tenant_id bodyS.user_id
    "github_ingestion" [("repo_url", PyVal.str X)] (WF_chatPrelude dbS bodyS hwfS)
  refine ⟨rfl, rfl, rfl, ?_, ?_, ?_⟩
  · rw [gpfs_congr _ (resolvedStore ((JobRepository.create (chatPrelude dbS bodyS)
        bodyS.tenant_id bodyS.user_id "github_ingestion"
        [("repo_url", PyVal.str X)]).2) c true) (add_frames _ _ _ _ _).2.2.2]
    apply gpfs_resolvedStore_none
    intro x hx hp
    rw [jobCreate_confirmations, chatPrelude_confirmations] at hx
    exact huniq x hx hp
  · rw [gpfs_congr _ dbF (by
      rw [(add_frames _ _ _ _ _).2.2.2, jobCreate_confirmations, chatPrelude_confirmations])]
    exact hpendF
  · refine ⟨resolvedRecord c true ((JobRepository.create (chatPrelude dbS bodyS)
        bodyS.tenant_id bodyS.user_id "github_ingestion"
        [("repo_url", PyVal.str X)]).2).now, ?_, rfl⟩
    show confById _ c.id = _
    have hcf : confById ((MessageRepository.add
        (resolvedStore ((JobRepository.create (chatPrelude dbS bodyS) bodyS.tenant_id
          bodyS.user_id "github_ingestion" [("repo_url", PyVal.str X)]).2) c true)
        bodyS.tenant_id bodyS.session_id "assistant"
        ("Ingestion job started. Job ID: " ++ toString (chatPrelude dbS bodyS).nextId)).2) c.id
        = confById (resolvedStore ((JobRepository.create (chatPrelude dbS bodyS)
          bodyS.tenant_id bodyS.user_id "github_ingestion"
          [("repo_url", PyVal.str X)]).2) c true) c.id := rfl
    rw [hcf]
    exact confById_resolvedStore _ c true hwf3 hmem2

/-- Fallback-side store: the last assistant message is the GitHub crawl prompt
for github.com/acme/widget, with no pending confirmation. -/
def dbFallbackPrompt : DB :=
  (MessageRepository.add dbEmpty 1 3 "assistant"
    (github_confirm_prompt "github.com/acme/widget")).2

/-- Witness for C3 on concrete stores: the structured store and the
fallback-prompt store, both answered "yes" for the same url. -/
theorem structured_and_fallback_equivalent_witness :
    jobsCreated (chat dbPendingIngest ⟨1, 2, 3, "yes"⟩ (AgentResult.message "x")).2.2
      = [("github_ingestion", [("repo_url", PyVal.str "github.com/acme/widget")])] ∧
    jobsCreated (chat dbFallbackPrompt ⟨1, 2, 3, "yes"⟩ (AgentResult.message "x")).2.2
      = [("github_ingestion", [("repo_url", PyVal.str "github.com/acme/widget")])] ∧
    jobsCreated (chat dbPendingIngest ⟨1, 2, 3, "yes"⟩ (AgentResult.message "x")).2.2
      = jobsCreated (chat dbFallbackPrompt ⟨1, 2, 3, "yes"⟩ (AgentResult.message "x")).2.2 ∧
    ConfirmationRepository.get_pending_for_session
      (chat dbPendingIngest ⟨1, 2, 3, "yes"⟩ (AgentResult.message "x")).2.1 1 2 3 = none ∧
    ConfirmationRepository.get_pending_for_session
      (chat dbFallbackPrompt ⟨1, 2, 3, "yes"⟩ (AgentResult.message "x")).2.1 1 2 3 = none ∧
    (∃ c2, confById (chat dbPendingIngest ⟨1, 2, 3, "yes"⟩
        (AgentResult.message "x")).2.1 0 = some c2 ∧ c2.status = CStatus.approved) :=
  structured_and_fallback_equivalent dbPendingIngest dbFallbackPrompt
    ⟨1, 2, 3, "yes"⟩ ⟨1, 2, 3, "yes"⟩
    ⟨0, 1, 2, 3, "ingest_github", [("repo_url", PyVal.str "github.com/acme/widget")],
      CStatus.pending, 0, none⟩
    "github.com/acme/widget" (AgentResult.message "x") (AgentResult.message "x")
    (by decide) (by decide) (by decide) (by decide) (by decide) (by decide) rfl
    (by decide) rfl (by decide)

/-! ### Claim C10 -/

/-- Whether the (lowercased) GitHub-crawl prompt header occurs anywhere in the
text, case-insensitively. -/
def containsGithubHeaderCI : List Char → Bool
  | [] => false
  | c :: cs => (matchLitCI githubHeader (c :: cs)).isSome || containsGithubHeaderCI cs

theorem search_some_has_header :
    ∀ (l : List Char) (g : List Char),
      searchGithubConfirm l = some g → containsGithubHeaderCI l = true := by
  intro l
  induction l with
  | nil =>
      intro g h
      exact absurd h (by simp [searchGithubConfirm])
  | cons c cs ih =>
      intro g h
      unfold searchGithubConfirm at h
      unfold containsGithubHeaderCI
      cases hm : matchLitCI githubHeader (c :: cs) with
      | some rest => simp [hm]
      | none =>
          rw [hm] at h
          simp only [hm, Option.isSome_none, Bool.false_or]
          exact ih g h

/-- Claim C10: the free-text resolution fallback recognizes only the GitHub
crawl prompt template — an extraction can only succeed when the template
header occurs in the last assistant text; the plain-text save-profile prompt
matches nothing; and when no pending confirmation exists and the pattern does
not match, a bare yes/no triggers no synthetic resolution and the message goes
to the reasoning engine as a normal turn. -/
theorem fallback_only_github_template :
    (∀ (s u : String),
      extract_repo_url_from_last_message (some s) = some u →
      containsGithubHeaderCI s.toList = true) ∧
    extract_repo_url_from_last_message (some save_candidate_prompt) = none ∧
    (∀ (db : DB) (body : ChatRequestM) (content : String),
      ConfirmationRepository.get_pending_for_session db body.tenant_id body.user_id
        body.session_id = none →
      is_yes_no body.message = true →
      extract_repo_url_from_last_message
        (MessageRepository.get_last_assistant_content (chatPrelude db body) body.tenant_id
          body.session_id) = none →
      chat db body (AgentResult.message content) =
        (ChatResponseM.message content,
         (MessageRepository.add (chatPrelude db body) body.tenant_id body.session_id
           "assistant" content).2,
         [Ev.sessionEnsured body.session_id, Ev.msgAdded "user" body.message,
          Ev.msgAdded "assistant" content, Ev.bgSummaryScheduled]) ∧
      (chat db body (AgentResult.message content)).2.1.jobs = db.jobs ∧
      (chat db body (AgentResult.message content)).2.1.confirmations = db.confirmations ∧
      (∀ e ∈ (chat db body (AgentResult.message content)).2.2,
        e.isConsequentAction = false ∧ e.isResolve = false)) := by
  refine ⟨?_, by decide, ?_⟩
  · intro s u h
    simp only [extract_repo_url_from_last_message] at h
    by_cases hs : (s == "") = true
    · rw [if_pos hs] at h
      exact absurd h (by simp)
    · rw [if_neg hs] at h
      rcases Option.map_eq_some'.mp h with ⟨g, hg, _⟩
      exact search_some_has_header s.toList g hg
  · intro db body content hpend hyes hex
    have hred := chat_agent_of_yesno_no_pattern db body (AgentResult.message content)
      hpend hyes hex
    rw [hred]
    refine ⟨rfl, ?_, ?_, ?_⟩
    · show ((MessageRepository.add (chatPrelude db body) body.tenant_id body.session_id
        "assistant" content).2).jobs = db.jobs
      rw [(add_frames _ _ _ _ _).1, chatPrelude_jobs]
    · show ((MessageRepository.add (chatPrelude db body) body.tenant_id body.session_id
        "assistant" content).2).confirmations = db.confirmations
      rw [(add_frames _ _ _ _ _).2.2.2, chatPrelude_confirmations]
    · intro e he
      simp only [chatAgentTurn, List.cons_append, List.nil_append, List.mem_cons,
        List.not_mem_nil, or_false] at he
      rcases he with rfl | rfl | rfl | rfl <;> exact ⟨rfl, rfl⟩

/-- Store whose last assistant message is the plain-text save-profile prompt. -/
def dbSavePrompt : DB :=
  (MessageRepository.add dbEmpty 1 3 "assistant" save_candidate_prompt).2

/-- Witness for C10: on the save-prompt store a bare "yes" goes to the
reasoning engine as a normal turn, with no job and no ledger changes. -/
theorem fallback_only_github_template_witness :
    chat dbSavePrompt ⟨1, 2, 3, "yes"⟩ (AgentResult.message "a normal reply") =
      (ChatResponseM.message "a normal reply",
       (MessageRepository.add (chatPrelude dbSavePrompt ⟨1, 2, 3, "yes"⟩) 1 3
         "assistant" "a normal reply").2,
       [Ev.sessionEnsured 3, Ev.msgAdded "user" "yes",
        Ev.msgAdded "assistant" "a normal reply", Ev.bgSummaryScheduled]) ∧
    (chat dbSavePrompt ⟨1, 2, 3, "yes"⟩ (AgentResult.message "a normal reply")).2.1.jobs
      = dbSavePrompt.jobs ∧
    (chat dbSavePrompt ⟨1, 2, 3, "yes"⟩
      (AgentResult.message "a normal reply")).2.1.confirmations
      = dbSavePrompt.confirmations ∧
    (∀ e ∈ (chat dbSavePrompt ⟨1, 2, 3, "yes"⟩ (AgentResult.message "a normal reply")).2.2,
      e.isConsequentAction = false ∧ e.isResolve = false) :=
  fallback_only_github_template.2.2 dbSavePrompt ⟨1, 2, 3, "yes"⟩ "a normal reply"
    rfl (by decide) (by decide)

/-! ### Claim C1: frame and preservation lemmas for every operation -/

theorem upsert_frames (db : DB) (t s : Nat) (x : String) :
    (SessionSummaryRepository.upsert db t s x).confirmations = db.confirmations ∧
    (SessionSummaryRepository.upsert db t s x).jobs = db.jobs ∧
    (SessionSummaryRepository.upsert db t s x).nextId = db.nextId := by
  unfold SessionSummaryRepository.upsert
  split <;> exact ⟨rfl, rfl, rfl⟩

theorem create_or_update_confirmations (db : DB) (t u : Nat) (url : String)
    (m fm ss ea : PyVal) :
    (RepositoryRepository.create_or_update db t u url m fm ss ea).confirmations
      = db.confirmations := by
  cases h : RepositoryRepository.get_by_url db t u url <;>
    simp [RepositoryRepository.create_or_update, h]

theorem create_or_update_nextId (db : DB) (t u : Nat) (url : String) (m fm ss ea : PyVal) :
    (RepositoryRepository.create_or_update db t u url m fm ss ea).nextId = db.nextId := by
  cases h : RepositoryRepository.get_by_url db t u url <;>
    simp [RepositoryRepository.create_or_update, h]

theorem run_ingest_confirmations (db : DB) (jid : Nat)
    (ingest : String → Except String IngestData) :
    ((run_github_ingestion_job db jid ingest).1).confirmations = db.confirmations := by
  unfold run_github_ingestion_job
  split
  · rfl
  next j hfind =>
    split
    · rfl
    · cases hI : ingest (payloadRepoUrl j.payload) with
      | error e =>
          simp only [hI]
          split <;> rfl
      | ok d =>
          simp only [hI]
          split
          · rfl
          · rw [create_or_update_confirmations]

theorem run_ingest_nextId (db : DB) (jid : Nat)
    (ingest : String → Except String IngestData) :
    ((run_github_ingestion_job db jid ingest).1).nextId = db.nextId := by
  unfold run_github_ingestion_job
  split
  · rfl
  next j hfind =>
    split
    · rfl
    · cases hI : ingest (payloadRepoUrl j.payload) with
      | error e =>
          simp only [hI]
          split <;> rfl
      | ok d =>
          simp only [hI]
          split
          · rfl
          · rw [create_or_update_nextId]

theorem run_ingest_jobIds (db : DB) (jid : Nat)
    (ingest : String → Except String IngestData) :
    ((run_github_ingestion_job db jid ingest).1).jobs.map (fun j => j.id)
      = db.jobs.map (fun j => j.id) := by
  unfold run_github_ingestion_job
  split
  · rfl
  next j hfind =>
    split
    · rfl
    · cases hI : ingest (payloadRepoUrl j.payload) with
      | error e =>
          simp only [hI]
          split
          · exact map_comp_of_update _ _ _
              (by intro y; by_cases hy : (y.id == jid) = true <;> simp [hy])
          · rw [map_comp_of_update _ _ _
                (by intro y; by_cases hy : (y.id == jid) = true <;> simp [hy]),
              map_comp_of_update _ _ _
                (by intro y; by_cases hy : (y.id == jid) = true <;> simp [hy])]
      | ok d =>
          simp only [hI]
          split
          · exact map_comp_of_update _ _ _
              (by intro y; by_cases hy : (y.id == jid) = true <;> simp [hy])
          · rw [create_or_update_jobs,
              map_comp_of_update _ _ _
                (by intro y; by_cases hy : (y.id == jid) = true <;> simp [hy]),
              map_comp_of_update _ _ _
                (by intro y; by_cases hy : (y.id == jid) = true <;> simp [hy])]

/-- Well-formedness transfers along any change that preserves the two id
columns and the id counter. -/
theorem WF_transfer (db db2 : DB)
    (hcid : db2.confirmations.map (fun c => c.id) = db.confirmations.map (fun c => c.id))
    (hjid : db2.jobs.map (fun j => j.id) = db.jobs.map (fun j => j.id))
    (hn : db2.nextId = db.nextId) (hwf : WF db) : WF db2 := by
  obtain ⟨h1, h2, h3, h4⟩ := hwf
  refine ⟨?_, ?_, ?_, ?_⟩
  · rw [hcid]
    exact h1
  · intro c hc
    have hm : c.id ∈ db2.confirmations.map (fun c => c.id) := List.mem_map_of_mem _ hc
    rw [hcid] at hm
    rcases List.mem_map.mp hm with ⟨c0, hc0, hid⟩
    rw [hn, ← hid]
    exact h2 c0 hc0
  · rw [hjid]
    exact h3
  · intro j hj
    have hm : j.id ∈ db2.jobs.map (fun j => j.id) := List.mem_map_of_mem _ hj
    rw [hjid] at hm
    rcases List.mem_map.mp hm with ⟨j0, hj0, hid⟩
    rw [hn, ← hid]
    exact h4 j0 hj0

/-- Creating a pending confirmation preserves well-formedness. -/
theorem WF_confCreate (db : DB) (t u s : Nat) (tool : String) (p : Payload) (hwf : WF db) :
    WF ((ConfirmationRepository.create_pending db t u s tool p).2) := by
  obtain ⟨h1, h2, h3, h4⟩ := hwf
  refine ⟨?_, ?_, h3, ?_⟩
  · show ((db.confirmations ++
      [(⟨db.nextId, t, u, s, tool, p, CStatus.pending, db.now, none⟩ : Confirmation)]).map
      (fun c => c.id)).Nodup
    rw [List.map_append, List.nodup_append]
    refine ⟨h1, List.nodup_singleton _, ?_⟩
    intro a ha hb
    simp only [List.map_cons, List.map_nil, List.mem_singleton] at hb
    rcases List.mem_map.mp ha with ⟨x, hx, rfl⟩
    have := h2 x hx
    omega
  · intro c hc
    rcases List.mem_append.mp hc with hc | hc
    · exact Nat.lt_succ_of_lt (h2 c hc)
    · simp only [List.mem_singleton] at hc
      subst hc
      exact Nat.lt_succ_self _
  · intro j hj
    exact Nat.lt_succ_of_lt (h4 j hj)

/-- Every backend operation preserves well-formedness. -/
theorem WF_applyOp (ingest : String → Except String IngestData) (db : DB) (op : Op)
    (hwf : WF db) : WF (applyOp ingest db op) := by
  cases op with
  | ensureSession t u s =>
      show WF (SessionRepository.ensure_exists db t u s)
      exact WF_transfer db _ (by rw [confirmations_ensure]) (by rw [jobs_ensure])
        (nextId_ensure db t u s) hwf
  | addMessage t s r c =>
      show WF ((MessageRepository.add db t s r c).2)
      exact WF_transfer db _ rfl rfl rfl hwf
  | upsertSummary t s x =>
      show WF (SessionSummaryRepository.upsert db t s x)
      exact WF_transfer db _ (by rw [(upsert_frames db t s x).1])
        (by rw [(upsert_frames db t s x).2.1]) (upsert_frames db t s x).2.2 hwf
  | createPending t u s tool p =>
      show WF ((ConfirmationRepository.create_pending db t u s tool p).2)
      exact WF_confCreate db t u s tool p hwf
  | resolveConfirmation t u s cid a =>
      show WF ((ConfirmationRepository.resolve db t u s cid a).2)
      cases hg : ConfirmationRepository.get_pending db t u s cid with
      | none =>
          unfold ConfirmationRepository.resolve
          rw [hg]
          exact hwf
      | some c0 =>
          obtain ⟨hmem0, hid, hsp⟩ := get_pending_inv db t u s cid c0 hg
          rw [← hid]
          rw [show (ConfirmationRepository.resolve db t u s c0.id a).2
              = resolvedStore db c0 a from by
            rw [resolve_found db t u s c0 a hwf hmem0 hsp]]
          refine WF_transfer db _ ?_ rfl rfl hwf
          exact map_comp_of_update _ _ _
            (by
              intro y
              by_cases hy : (y.id == c0.id) = true
              · simp only [hy, if_true]
                show (resolvedRecord c0 a db.now).id = y.id
                show c0.id = y.id
                exact (by simpa using hy : y.id = c0.id).symm
              · simp [hy])
  | createJob t u ty p =>
      show WF ((JobRepository.create db t u ty p).2)
      exact WF_jobCreate db t u ty p hwf
  | runIngest jid =>
      show WF ((run_github_ingestion_job db jid ingest).1)
      exact WF_transfer db _ (by rw [run_ingest_confirmations])
        (run_ingest_jobIds db jid ingest) (run_ingest_nextId db jid ingest) hwf
  | createCandidate t u a b c d e =>
      show WF ((CandidateRepository.create db t u a b c d e none).2)
      exact WF_transfer db _ rfl rfl rfl hwf
  | upsertRepo t u url d =>
      show WF (RepositoryRepository.create_or_update db t u url d.metadata_ d.file_map
        d.stack_signals d.extracted_artifacts)
      exact WF_transfer db _ (by rw [create_or_update_confirmations])
        (by rw [create_or_update_jobs]) (create_or_update_nextId db t u url _ _ _ _) hwf

/-- A resolve on an id whose row is no longer pending is a no-op answering
not-found. -/
theorem resolve_not_pending_noop (db : DB) (t u s cid : Nat) (a : Bool) (c : Confirmation)
    (hwf : WF db) (hfind : confById db cid = some c) (hnp : c.status ≠ CStatus.pending) :
    ConfirmationRepository.resolve db t u s cid a = (none, db) := by
  have hmem : c ∈ db.confirmations := List.mem_of_find?_eq_some hfind
  have hnone : ConfirmationRepository.get_pending db t u s cid = none := by
    apply List.find?_eq_none.mpr
    intro x hx hpx
    simp only [ConfirmationRepository.pendingPred, Bool.and_eq_true, beq_iff_eq] at hpx
    have hcid : c.id = cid := by simpa using List.find?_some hfind
    have hxc : x = c := key_unique_of_nodup (fun y => y.id) hwf.1 hx hmem
      (by show x.id = c.id; rw [hpx.1.1.1.1, hcid])
    rw [hxc] at hpx
    exact hnp hpx.2
  unfold ConfirmationRepository.resolve
  rw [hnone]

/-- Once a confirmation row is out of pending, no backend operation changes
the row a by-id lookup returns. -/
theorem confById_applyOp (ingest : String → Except String IngestData) (db : DB) (op : Op)
    (cid : Nat) (c : Confirmation) (hwf : WF db)
    (hfind : confById db cid = some c) (hnp : c.status ≠ CStatus.pending) :
    confById (applyOp ingest db op) cid = some c := by
  have hcid : c.id = cid := by simpa using List.find?_some hfind
  have hcmem : c ∈ db.confirmations := List.mem_of_find?_eq_some hfind
  cases op with
  | ensureSession t u s =>
      show confById (SessionRepository.ensure_exists db t u s) cid = some c
      unfold confById
      rw [confirmations_ensure]
      exact hfind
  | addMessage t s r x => exact hfind
  | upsertSummary t s x =>
      show confById (SessionSummaryRepository.upsert db t s x) cid = some c
      unfold confById
      rw [(upsert_frames db t s x).1]
      exact hfind
  | createPending t u s tool p =>
      show confById ((ConfirmationRepository.create_pending db t u s tool p).2) cid = some c
      unfold confById
      exact find?_append_of_some _ hfind
  | resolveConfirmation t u s cid2 a =>
      show confById ((ConfirmationRepository.resolve db t u s cid2 a).2) cid = some c
      cases hg : ConfirmationRepository.get_pending db t u s cid2 with
      | none =>
          unfold ConfirmationRepository.resolve
          rw [hg]
          exact hfind
      | some c0 =>
          obtain ⟨hmem0, hid0, hsp0⟩ := get_pending_inv db t u s cid2 c0 hg
          have hpend0 : c0.status = CStatus.pending := by
            unfold ConfirmationRepository.sessionPendingPred at hsp0
            simp only [Bool.and_eq_true, beq_iff_eq] at hsp0
            exact hsp0.2
          have hne : cid ≠ cid2 := by
            intro heq
            have hc0c : c0 = c := key_unique_of_nodup (fun y => y.id) hwf.1 hmem0 hcmem
              (by show c0.id = c.id; rw [hid0, hcid, heq])
            rw [hc0c] at hpend0
            exact hnp hpend0
          rw [← hid0]
          rw [show (ConfirmationRepository.resolve db t u s c0.id a).2
              = resolvedStore db c0 a from by
            rw [resolve_found db t u s c0 a hwf hmem0 hsp0]]
          unfold confById resolvedStore
          rw [find?_key_map_update_ne (fun y => y.id) db.confirmations
            (resolvedRecord c0 a db.now) cid c0.id rfl (by rw [hid0]; exact hne)]
          exact hfind
  | createJob t u ty p => exact hfind
  | runIngest jid =>
      show confById ((run_github_ingestion_job db jid ingest).1) cid = some c
      unfold confById
      rw [run_ingest_confirmations]
      exact hfind
  | createCandidate t u a b x d e => exact hfind
  | upsertRepo t u url d =>
      show confById (RepositoryRepository.create_or_update db t u url d.metadata_ d.file_map
        d.stack_signals d.extracted_artifacts) cid = some c
      unfold confById
      rw [create_or_update_confirmations]
      exact hfind

/-- Iterated preservation over any operation sequence. -/
theorem applyOps_preserves (ingest : String → Except String IngestData) (ops : List Op)
    (cid : Nat) (c : Confirmation) (hnp : c.status ≠ CStatus.pending) :
    ∀ db : DB, WF db → confById db cid = some c →
      WF (applyOps ingest db ops) ∧ confById (applyOps ingest db ops) cid = some c := by
  induction ops with
  | nil => exact fun db hwf hfind => ⟨hwf, hfind⟩
  | cons op rest ih =>
      intro db hwf hfind
      have hstep : applyOps ingest db (op :: rest)
          = applyOps ingest (applyOp ingest db op) rest := rfl
      rw [hstep]
      exact ih (applyOp ingest db op) (WF_applyOp ingest db op hwf)
        (confById_applyOp ingest db op cid c hwf hfind hnp)

/-- Claim C1: once a resolve on a confirmation id succeeds, then after any
sequence of backend operations, a later resolve attempt on that id (from any
scope, either way) reports not-found and changes nothing, and the row a by-id
lookup returns — its status and resolved_at included — is exactly the row the
first resolve wrote; at most one transition out of pending ever occurs. -/
theorem confirmation_single_transition
    (ingest : String → Except String IngestData) (db : DB) (t u s cid : Nat)
    (approved : Bool) (c : Confirmation) (dbR : DB)
    (hwf : WF db)
    (hres : ConfirmationRepository.resolve db t u s cid approved = (some c, dbR))
    (ops : List Op) (t2 u2 s2 : Nat) (approved2 : Bool) :
    ConfirmationRepository.resolve (applyOps ingest dbR ops) t2 u2 s2 cid approved2
      = (none, applyOps ingest dbR ops) ∧
    confById (applyOps ingest dbR ops) cid = some c := by
  cases hg : ConfirmationRepository.get_pending db t u s cid with
  | none =>
      exfalso
      unfold ConfirmationRepository.resolve at hres
      rw [hg] at hres
      have h1 : (none : Option Confirmation) = some c := congrArg Prod.fst hres
      exact Option.noConfusion h1
  | some c0 =>
      obtain ⟨hmem0, hid0, hsp0⟩ := get_pending_inv db t u s cid c0 hg
      rw [← hid0] at hres
      rw [resolve_found db t u s c0 approved hwf hmem0 hsp0] at hres
      have hc : c = resolvedRecord c0 approved db.now := by
        have := congrArg Prod.fst hres
        simpa using this.symm
      have hdbR : dbR = resolvedStore db c0 approved := by
        have := congrArg Prod.snd hres
        exact this.symm
      have hnp : c.status ≠ CStatus.pending := by
        rw [hc]
        unfold resolvedRecord
        cases approved <;> simp
      have hwfR : WF dbR := by
        rw [hdbR]
        refine WF_transfer db _ ?_ rfl rfl hwf
        exact map_comp_of_update _ _ _
          (by
            intro y
            by_cases hy : (y.id == c0.id) = true
            · simp only [hy, if_true]
              show (resolvedRecord c0 approved db.now).id = y.id
              show c0.id = y.id
              exact (by simpa using hy : y.id = c0.id).symm
            · simp [hy])
      have hfindR : confById dbR cid = some c := by
        rw [hdbR, hc]
        unfold confById resolvedStore
        rw [← hid0]
        have hfind0 : db.confirmations.find? (fun y => y.id == c0.id) = some c0 :=
          find?_key_of_mem_nodup (fun y => y.id) hwf.1 hmem0 rfl
        exact find?_key_map_of_key_preserving (fun y : Confirmation => y.id)
          (fun x => if x.id == c0.id then resolvedRecord c0 approved db.now else x)
          (resolvedRecord c0 approved db.now) hwf.1 hfind0
          (by
            intro y
            by_cases hy : (y.id == c0.id) = true
            · simp only [hy, if_true]
              show c0.id = y.id
              exact (by simpa using hy : y.id = c0.id).symm
            · simp [hy])
          (by simp)
      obtain ⟨hwf2, hfind2⟩ := applyOps_preserves ingest ops cid c hnp dbR hwfR hfindR
      exact ⟨resolve_not_pending_noop _ t2 u2 s2 cid approved2 c hwf2 hfind2 hnp, hfind2⟩

/-- Witness for C1: on the concrete store, after the first successful resolve
and a sequence of interleaved operations (a new pending confirmation, a job, a
resolve of the new confirmation, a message), the second resolve of id 0
answers not-found and the row is unchanged. -/
theorem confirmation_single_transition_witness :
    ConfirmationRepository.resolve
      (applyOps ingestErr dbResolvedIngest
        [Op.createPending 1 2 3 "ingest_github" [],
         Op.createJob 1 2 "github_ingestion" [("repo_url", PyVal.str "u")],
         Op.resolveConfirmation 1 2 3 1 true,
         Op.addMessage 1 3 "user" "hi"]) 1 2 3 0 false
      = (none, applyOps ingestErr dbResolvedIngest
          [Op.createPending 1 2 3 "ingest_github" [],
           Op.createJob 1 2 "github_ingestion" [("repo_url", PyVal.str "u")],
           Op.resolveConfirmation 1 2 3 1 true,
           Op.addMessage 1 3 "user" "hi"]) ∧
    confById (applyOps ingestErr dbResolvedIngest
        [Op.createPending 1 2 3 "ingest_github" [],
         Op.createJob 1 2 "github_ingestion" [("repo_url", PyVal.str "u")],
         Op.resolveConfirmation 1 2 3 1 true,
         Op.addMessage 1 3 "user" "hi"]) 0
      = some ⟨0, 1, 2, 3, "ingest_github", [("repo_url", PyVal.str "github.com/acme/widget")],
          CStatus.approved, 0, some 1⟩ :=
  confirmation_single_transition ingestErr dbPendingIngest 1 2 3 0 true
    ⟨0, 1, 2, 3, "ingest_github", [("repo_url", PyVal.str "github.com/acme/widget")],
      CStatus.approved, 0, some 1⟩
    dbResolvedIngest (by decide) (by decide)
    [Op.createPending 1 2 3 "ingest_github" [],
     Op.createJob 1 2 "github_ingestion" [("repo_url", PyVal.str "u")],
     Op.resolveConfirmation 1 2 3 1 true,
     Op.addMessage 1 3 "user" "hi"] 1 2 3 false

end TalentCopilot
